import Mathlib

/-!
# Verification of the symmetry-rust-sdk pricing core

Shallow embedding of `src/jupiter-core/src/amms/accounts.rs` and
`src/symmetry-math/src/amms/symmetry_token_swap.rs`.

Modelling conventions:

* Rust `u64` values are represented as `Nat`.  Native `u64` arithmetic that the
  source performs without a `checked_*` guard is modelled with explicit
  wrap-around modulo `2^64` (`wadd`, `wsub`, `wmul`, and `pow10w` for
  `u64::pow(10, _)`): this is the behaviour of the compiled (release) code,
  where integer overflow wraps.  Subtractions that the source only reaches
  under a guard making them exact are written with plain `Nat` subtraction and
  noted at the definition.
* A Rust byte slice `&[u8]` is a length together with its contents, modelled by
  the structure `Bytes`.  Each byte access is reduced `% 256`, mirroring the
  `u8` element type (on real inputs every byte is `< 256` already).
* Fallible loaders return `LRes α`: `.err` models returning `anyhow::Error`
  (the wrong-account-size checks), `.panic` models an actual Rust panic
  (slice-index or array-index out of bounds), `.ok` a normal return.
* `OraclePrice::load` in the source reads the ambient Solana clock via
  `Clock::get().unwrap_or_default()` (it has no clock parameter).  The
  embedding makes that ambient value an explicit `AmbientClock` argument so
  that the dependence on it can be stated and proved.
* The swap-math helpers (`amount_to_usd_value`, `usd_value_to_amount`) are
  typed `Result<u64>`/`Option<u64>` in the source but are built from the total
  `mul_div`, so their error branch is statically dead; the embedding returns
  the value and the two curve walkers return `Except String Nat` with a final
  `.ok`, exactly matching the only outcome the source can produce.
-/

set_option autoImplicit false

/-! ## Constants (accounts.rs lines 5-18) -/

def FUND_STATE_ACCOUNT_SIZE : Nat := 10208
def TOKEN_LIST_ACCOUNT_SIZE : Nat := 39816
def CURVE_DATA_ACCOUNT_SIZE : Nat := 64008

/-- Embedding of `ORACLE_ACCOUNT_SIZE: [usize; 2] = [3312, 809]` as a function of the
index; indexing it with `i ≥ 2` is out of bounds in the source and is guarded
explicitly at the (single) use site in `OraclePrice.load`. -/
def ORACLE_ACCOUNT_SIZE (i : Nat) : Nat := if i = 0 then 3312 else 809

def MAX_TOKENS_IN_ASSET_POOL : Nat := 100
def NUM_TOKENS_IN_FUND : Nat := 20
def NUM_OF_POINTS_IN_CURVE_DATA : Nat := 10
def ONE_USD : Nat := 1000000000000
def USE_CURVE_DATA : Nat := 1
def BPS_DIVIDER : Nat := 10000

/-- The constant `2^64`, the modulus of Rust `u64` arithmetic. -/
def U64MOD : Nat := 18446744073709551616

/-- The constant `2^63`, the sign bit: an `i64` bit pattern `u ≥ 2^63` is negative. -/
def I64SIGN : Nat := 9223372036854775808

/-! ## Wrapping `u64` arithmetic (release-mode semantics) -/

/-- Wrapping `u64` addition. -/
def wadd (x y : Nat) : Nat := (x + y) % U64MOD

/-- Wrapping `u64` subtraction. -/
def wsub (x y : Nat) : Nat := (x % U64MOD + U64MOD - y % U64MOD) % U64MOD

/-- Wrapping `u64` multiplication. -/
def wmul (x y : Nat) : Nat := (x * y) % U64MOD

/-- Wrapping `u64::pow(10, e)`: repeated wrapping multiplication is
multiplication modulo `2^64`, i.e. the result is `10^e % 2^64`. -/
def pow10w (e : Nat) : Nat := 10 ^ e % U64MOD

/-! ## `mulDiv`, embedding `mul_div` (accounts.rs lines 20-26)

The source name `mul_div` collides with a Mathlib lemma, hence `mulDiv`.

```rust
pub fn mul_div(a: u64, b: u64, c: u64) -> u64 {
    match c {
        0 => 0,
        _ => (a as u128).checked_mul(b as u128).unwrap_or_default()
                        .checked_div(c as u128).unwrap_or_default()
                        .try_into().unwrap_or_default()
    }
}
```

For `u64` inputs the `u128` product `a*b` never exceeds `(2^64-1)^2 < 2^128`,
so `checked_mul` never fails; `checked_div` is applied with `c ≠ 0`; the final
`try_into::<u64>` yields `0` whenever the quotient is `≥ 2^64`. -/

def mulDiv (a b c : Nat) : Nat :=
  if c = 0 then 0
  else if a * b / c < U64MOD then a * b / c else 0

/-! ## Byte buffers -/

/-- A Rust byte slice: a length and the byte at each index.  Reads apply
`% 256`, mirroring the `u8` element type. -/
structure Bytes where
  len : Nat
  byte : Nat → Nat

/-- The `u8` at index `i`. -/
def readU8 (d : Bytes) (i : Nat) : Nat := d.byte i % 256

/-- Little-endian value of the `n` bytes starting at `off`
(`u64::from_le_bytes` / `Pubkey::new_from_array` style). -/
def readLE (d : Bytes) (off n : Nat) : Nat :=
  match n with
  | 0 => 0
  | m + 1 => readU8 d off + 256 * readLE d (off + 1) m

/-- Embedding of `u64::from_le_bytes` of bytes `off..off+8`. -/
def readU64 (d : Bytes) (off : Nat) : Nat := readLE d off 8

/-- Raw `u32`/`i32` bits of bytes `off..off+4`. -/
def readU32 (d : Bytes) (off : Nat) : Nat := readLE d off 4

/-! ## Oracle data model (accounts.rs lines 221-326) -/

/-- Embedding of `OraclePrice` (accounts.rs lines 221-227); `oracle_live` is a `u8`. -/
structure OraclePrice where
  sell_price : Nat
  avg_price : Nat
  buy_price : Nat
  oracle_live : Nat
deriving DecidableEq

/-- Embedding of `TokenSettings` (accounts.rs lines 76-94).  32-byte `Pubkey` fields are
modelled by their little-endian value; the two raw byte-array fields by their
byte functions.  All scalar fields are `u8` in the source. -/
structure TokenSettings where
  token_mint : Nat
  decimals : Nat
  coingecko_id : Nat → Nat
  pda_token_account : Nat
  oracle_type : Nat
  oracle_account : Nat
  oracle_index : Nat
  oracle_confidence_pct : Nat
  fixed_confidence_bps : Nat
  token_swap_fee_after_tw_bps : Nat
  token_swap_fee_before_tw_bps : Nat
  is_live : Nat
  lp_on : Nat
  use_curve_data : Nat
  additional_data : Nat → Nat
  oracle_price : OraclePrice

/-- The ambient Solana clock observed by `Clock::get().unwrap_or_default()`
inside `OraclePrice::load` (accounts.rs lines 244 and 282).  `unix_timestamp`
is stored already cast `as u64` (the source immediately performs that cast). -/
structure AmbientClock where
  slot : Nat
  unix_timestamp : Nat

/-- Load result: `.err` = returned `anyhow::Error`, `.panic` = Rust panic
(out-of-bounds index), `.ok` = normal return. -/
inductive LRes (α : Type) where
  | panic : LRes α
  | err : String → LRes α
  | ok : α → LRes α
deriving DecidableEq

/-- The `oracle_type = 0` ("Pyth-like") arm of the match in
`OraclePrice::load` (accounts.rs lines 236-268), producing
`(price, coinfidence, oracle_live)`.  All byte reads (offsets 20, 40, 208,
216, 224) lie inside the 3312-byte account.  `price` is an `i64` bit pattern
`u`: `price < 0` is `u ≥ 2^63` and `price as u64` is `u` itself;
`conf * 10` is an unchecked `u64` product; `50 + valid_slot` an unchecked sum;
`(-expo) as u32` on the `i32` bit pattern `e` is `(2^32 - e) % 2^32` (also for
`e = i32::MIN`, where the negation itself wraps). -/
def oracleCoreType0 (d : Bytes) (ts : TokenSettings) (clock : AmbientClock) :
    Nat × Nat × Nat :=
  let valid_slot := readU64 d 40
  let e := readU32 d 20
  let priceU := readU64 d 208
  let conf := readU64 d 216
  let status := readU32 d 224
  let oracle_live :=
    if clock.slot ≥ wadd 50 valid_slot ∨ status ≠ 1 ∨ I64SIGN ≤ priceU ∨
        wmul conf 10 > priceU then 0 else 1
  let pow_num := pow10w ((4294967296 - e) % 4294967296)
  let avg_price := mulDiv priceU ONE_USD pow_num
  let confidence := mulDiv conf ONE_USD pow_num
  let base_confidene := mulDiv confidence ts.oracle_confidence_pct 100
  (avg_price, base_confidene, oracle_live)

/-- The `oracle_type = 1` ("table") arm (accounts.rs lines 269-308), reached
only after the slice bounds have been checked in `OraclePrice.load`.
`10000 - oracle_confidence_pct` is exact for the `u8` field; the unchecked
`u64` sums/differences (`write_timestamp + 40/30/10`,
`(current_time - write_timestamp - 10) * 2`, the `+` on the confidence) are
wrapped. -/
def oracleCoreType1 (d : Bytes) (ts : TokenSettings) (clock : AmbientClock) :
    Nat × Nat × Nat :=
  let price_start := ts.oracle_index * 8 + 9
  let mantissa := readU64 d price_start
  let write_timestamp := readU64 d (price_start + 400)
  let current_time := clock.unix_timestamp
  let oracle_live := if current_time > wadd write_timestamp 40 then 0 else 1
  let time_based_confidence_bps :=
    if current_time > wadd write_timestamp 30 then 9900
    else if current_time > wadd write_timestamp 10 then
      wadd ts.oracle_confidence_pct
        (wmul (wsub (wsub current_time write_timestamp) 10) 2)
    else ts.oracle_confidence_pct
  let avg_price := mulDiv mantissa (10000 - ts.oracle_confidence_pct) 10000
  let base_confidence := mulDiv avg_price time_based_confidence_bps 10000
  (avg_price, base_confidence, oracle_live)

/-- The full match on `oracle_type` (accounts.rs lines 235-310).  The `_` arm
returning `(0, 0, 0)` is kept although `OraclePrice.load` can no longer reach
it: the out-of-bounds index into `ORACLE_ACCOUNT_SIZE` fires first. -/
def oracleCore (d : Bytes) (ts : TokenSettings) (clock : AmbientClock) :
    Nat × Nat × Nat :=
  if ts.oracle_type = 0 then oracleCoreType0 d ts clock
  else if ts.oracle_type = 1 then oracleCoreType1 d ts clock
  else (0, 0, 0)

/-- The common finishing block (accounts.rs lines 312-323): from
`(price, coinfidence, oracle_live)` compute `additional_confidence` and the
wrapped `u64` subtractions/additions for `sell_price`/`buy_price`. -/
def oracleFinish (pcl : Nat × Nat × Nat) (fixedBps : Nat) : OraclePrice :=
  let additional_confidence := mulDiv pcl.1 fixedBps 10000
  { sell_price := wsub (wsub pcl.1 pcl.2.1) additional_confidence
    avg_price := pcl.1
    buy_price := wadd (wadd pcl.1 pcl.2.1) additional_confidence
    oracle_live := pcl.2.2 }

/-- Embedding of `OraclePrice::load` (accounts.rs lines 230-324).  In source order:

1. `ORACLE_ACCOUNT_SIZE[token_settings.oracle_type as usize]` panics for
   `oracle_type ≥ 2` (the array has two elements);
2. the length comparison returns the wrong-size error;
3. inside the `oracle_type = 1` arm, the slices
   `account_data[price_start..price_start+8]` and
   `account_data[price_start+400..price_start+408]` panic (in this order) when
   they overrun the 809-byte account, i.e. when `oracle_index ≥ 50`;
4. otherwise the match result goes through the common finishing block. -/
def OraclePrice.load (d : Bytes) (ts : TokenSettings) (clock : AmbientClock) :
    LRes OraclePrice :=
  if 2 ≤ ts.oracle_type then .panic
  else if d.len ≠ ORACLE_ACCOUNT_SIZE ts.oracle_type then
    .err "Wrong account size for oracle"
  else if ts.oracle_type = 1 ∧
      (d.len < ts.oracle_index * 8 + 9 + 8 ∨
       d.len < ts.oracle_index * 8 + 9 + 408) then .panic
  else .ok (oracleFinish (oracleCore d ts clock) ts.fixed_confidence_bps)

/-! ## Account decoders (accounts.rs lines 28-219) -/

/-- Embedding of `FundState` (accounts.rs lines 28-40).  The three `[u64; 20]` arrays are
modelled as functions that are zero outside `0..20`. -/
structure FundState where
  manager : Nat
  host_pubkey : Nat
  num_of_tokens : Nat
  current_comp_token : Nat → Nat
  current_comp_amount : Nat → Nat
  target_weight : Nat → Nat
  weight_sum : Nat
  rebalance_threshold : Nat
  lp_offset_threshold : Nat
  lp_disabled : Nat

/-- Embedding of `FundState::load` (accounts.rs lines 43-73).  After the exact-length check
every slice read (the largest ends at byte 9440) is inside the 10208-byte
account, so no read can panic and the function always returns `Ok`. -/
def FundState.load (d : Bytes) : LRes FundState :=
  if d.len ≠ FUND_STATE_ACCOUNT_SIZE then .err "Wrong account size for FundState"
  else .ok
    { manager := readLE d 16 32
      host_pubkey := readLE d 128 32
      num_of_tokens := readU64 d 168
      current_comp_token := fun i =>
        if i < NUM_TOKENS_IN_FUND then readU64 d (176 + i * 8) else 0
      current_comp_amount := fun i =>
        if i < NUM_TOKENS_IN_FUND then readU64 d (336 + i * 8) else 0
      target_weight := fun i =>
        if i < NUM_TOKENS_IN_FUND then readU64 d (656 + i * 8) else 0
      weight_sum := readU64 d 816
      rebalance_threshold := readU64 d 1024
      lp_offset_threshold := readU64 d 1040
      lp_disabled := readU64 d 9432 }

/-- The all-zero `OraclePrice` literal used for unparsed entries
(accounts.rs line 126). -/
def defaultOraclePrice : OraclePrice :=
  { sell_price := 0, avg_price := 0, buy_price := 0, oracle_live := 0 }

/-- The default-initialised `TokenSettings` entry (accounts.rs lines 110-127). -/
def defaultTokenSettings : TokenSettings :=
  { token_mint := 0
    decimals := 0
    coingecko_id := fun _ => 0
    pda_token_account := 0
    oracle_type := 0
    oracle_account := 0
    oracle_index := 0
    oracle_confidence_pct := 0
    fixed_confidence_bps := 0
    token_swap_fee_after_tw_bps := 0
    token_swap_fee_before_tw_bps := 0
    is_live := 0
    lp_on := 0
    use_curve_data := 0
    additional_data := fun _ => 0
    oracle_price := defaultOraclePrice }

/-- Embedding of `TokenList` (accounts.rs lines 96-100); `list` models the
`[TokenSettings; 100]` array. -/
structure TokenList where
  num_tokens : Nat
  list : Nat → TokenSettings

/-- Parsing of entry `i` from the 199-byte slice at `16 + i*199`
(accounts.rs lines 131-145).  `coingecko_id` and `oracle_price` are not
assigned by the loop and keep their defaults; `additional_data` is the
`[u8; 63]` tail of the slice. -/
def parseTokenSettings (d : Bytes) (i : Nat) : TokenSettings :=
  let off := 16 + i * 199
  { token_mint := readLE d off 32
    decimals := readU8 d (off + 32)
    coingecko_id := fun _ => 0
    pda_token_account := readLE d (off + 63) 32
    oracle_type := readU8 d (off + 95)
    oracle_account := readLE d (off + 96) 32
    oracle_index := readU8 d (off + 128)
    oracle_confidence_pct := readU8 d (off + 129)
    fixed_confidence_bps := readU8 d (off + 130)
    token_swap_fee_after_tw_bps := readU8 d (off + 131)
    token_swap_fee_before_tw_bps := readU8 d (off + 132)
    is_live := readU8 d (off + 133)
    lp_on := readU8 d (off + 134)
    use_curve_data := readU8 d (off + 135)
    additional_data := fun k => if k < 63 then readU8 d (off + 136 + k) else 0
    oracle_price := defaultOraclePrice }

/-- The `for i in 0..num_tokens` loop of `TokenList::load` (accounts.rs lines
130-146), iterating `fuel` more times starting at index `i`.  In source order,
iteration `i` first takes the slice `account_data[16+i*199..16+(i+1)*199]`
(panicking when it overruns the account) and then assigns into `list[i]`
(panicking when `i ≥ 100`, the array length). -/
def tokenListLoop (d : Bytes) (i fuel : Nat) (acc : Nat → TokenSettings) :
    LRes (Nat → TokenSettings) :=
  match fuel with
  | 0 => .ok acc
  | fuel' + 1 =>
    if d.len < 16 + (i + 1) * 199 then .panic
    else if MAX_TOKENS_IN_ASSET_POOL ≤ i then .panic
    else tokenListLoop d (i + 1) fuel'
      (fun j => if j = i then parseTokenSettings d i else acc j)

/-- Packaging of the loop result into the `TokenList` record (or the
propagated panic/error). -/
def finishTokenList (num_tokens : Nat) (res : LRes (Nat → TokenSettings)) :
    LRes TokenList :=
  match res with
  | .panic => .panic
  | .err e => .err e
  | .ok list => .ok { num_tokens := num_tokens, list := list }

/-- Embedding of `TokenList::load` (accounts.rs lines 103-148): exact-length check, read
`num_tokens` from bytes 8..16, then run the parsing loop `num_tokens` times
over the default-initialised array. -/
def TokenList.load (d : Bytes) : LRes TokenList :=
  if d.len ≠ TOKEN_LIST_ACCOUNT_SIZE then .err "Wrong account size for TokenList"
  else
    finishTokenList (readU64 d 8)
      (tokenListLoop d 0 (readU64 d 8) (fun _ => defaultTokenSettings))

/-- Embedding of `TokenPriceData` (accounts.rs lines 152-157): two `[u64; 10]` arrays,
modelled as functions that are zero outside `0..10`. -/
structure TokenPriceData where
  amount : Nat → Nat
  price : Nat → Nat

/-- Embedding of `CurveData` (accounts.rs lines 159-163): two `[TokenPriceData; 100]`. -/
structure CurveData where
  buy : Nat → TokenPriceData
  sell : Nat → TokenPriceData

/-- Embedding of `CurveData::load` (accounts.rs lines 166-197).  After the exact-length
check, every read of the `i < 100`, `j < 10` loops is inside the 64008-byte
account (the largest ends at byte 48008), so the function always returns `Ok`.
Entries outside the loop ranges stay at the zero initialisation. -/
def CurveData.load (d : Bytes) : LRes CurveData :=
  if d.len ≠ CURVE_DATA_ACCOUNT_SIZE then .err "Wrong account size for CurveData"
  else .ok
    { buy := fun i =>
        if i < MAX_TOKENS_IN_ASSET_POOL then
          { amount := fun j =>
              if j < NUM_OF_POINTS_IN_CURVE_DATA then
                readU64 d (8 + i * 160 + j * 8) else 0
            price := fun j =>
              if j < NUM_OF_POINTS_IN_CURVE_DATA then
                readU64 d (88 + i * 160 + j * 8) else 0 }
        else { amount := fun _ => 0, price := fun _ => 0 }
      sell := fun i =>
        if i < MAX_TOKENS_IN_ASSET_POOL then
          { amount := fun j =>
              if j < NUM_OF_POINTS_IN_CURVE_DATA then
                readU64 d (32008 + i * 160 + j * 8) else 0
            price := fun j =>
              if j < NUM_OF_POINTS_IN_CURVE_DATA then
                readU64 d (32088 + i * 160 + j * 8) else 0 }
        else { amount := fun _ => 0, price := fun _ => 0 } }

/-! ## Swap math (symmetry_token_swap.rs lines 43-240)

`SymmetryMath::mul_div` wraps the total `accounts::mul_div` in an
`Option`/`Result` that is therefore always `Some`/`Ok`; the two Rust helpers
below return `Result<u64>` whose error branch is statically dead, so their
embeddings return the value directly.  The `u64::pow(10, decimals)` in each is
the wrapping `pow10w`. -/

/-- Embedding of `SymmetryMath::amount_to_usd_value` (symmetry_token_swap.rs lines 49-51). -/
def amountToUsdValue (amount decimals price : Nat) : Nat :=
  mulDiv amount price (pow10w decimals)

/-- Embedding of `SymmetryMath::usd_value_to_amount` (symmetry_token_swap.rs lines 53-55). -/
def usdValueToAmount (worth decimals price : Nat) : Nat :=
  mulDiv worth (pow10w decimals) price

/-- Mutable state of the `compute_value_of_sold_token` loop
(symmetry_token_swap.rs lines 65-73); `done` records that the
`if amount_left == 0 { break }` at the end of an iteration has fired. -/
structure SellState where
  current_amount : Nat
  curve_offset : Nat
  current_output_value : Nat
  amount_left : Nat
  current_price : Nat
  done : Bool

/-- Initial state of the sell walker (symmetry_token_swap.rs lines 65-73). -/
def sellInit (amount start_amount target_amount sell_price : Nat) : SellState :=
  { current_amount := start_amount
    curve_offset :=
      if start_amount > target_amount then start_amount - target_amount else 0
    current_output_value := 0
    amount_left := amount
    current_price := sell_price
    done := false }

/-- The `amount_before_tw` computation of the sell walker
(symmetry_token_swap.rs lines 98-103): starting from the full interval,
subtract the part beyond the target.  `current_amount + amount_in_interval` is
an unchecked `u64` sum; both subtractions are unchecked `u64` differences. -/
def sellBeforeTw (target_amount current_amount amount_in_interval : Nat) : Nat :=
  if current_amount ≥ target_amount then 0
  else if wadd current_amount amount_in_interval ≥ target_amount then
    wsub amount_in_interval
      (wsub (wadd current_amount amount_in_interval) target_amount)
  else amount_in_interval

/-- The net value a processed slice adds to `current_output_value`
(symmetry_token_swap.rs lines 98-127): split the slice at the target
boundary, convert both halves at the current price, take the two bps fees
(`+` on `u64`), and subtract them from the gross value
(`value_before_tw + value_after_tw - fees`, both operations on `u64`). -/
def sellSliceOut (decimals fee_before_bps fee_after_bps target_amount
    price current_amount amount_in_interval : Nat) : Nat :=
  let amount_before_tw := sellBeforeTw target_amount current_amount amount_in_interval
  let amount_after_tw := wsub amount_in_interval amount_before_tw
  let value_before_tw := amountToUsdValue amount_before_tw decimals price
  let value_after_tw := amountToUsdValue amount_after_tw decimals price
  let fees :=
    wadd (mulDiv value_before_tw fee_before_bps BPS_DIVIDER)
      (mulDiv value_after_tw fee_after_bps BPS_DIVIDER)
  wsub (wadd value_before_tw value_after_tw) fees

/-- One iteration of the sell walker (symmetry_token_swap.rs lines 75-133), in
source order: pick `step_amount` (the terminal step absorbs `amount_left`);
lower `current_price` to the curve price when `step < 10`, the curve price is
smaller and `use_curve_data = 1`; clear `curve_offset` on the terminal step;
skip (`continue`) when `step_amount ≤ curve_offset`; otherwise clip the
interval to `amount_left`, add the slice's net value (`sellSliceOut`), and
advance.  The subtractions guarded by a comparison in the source
(`curve_offset -= step_amount`, `step_amount - curve_offset`, `amount_left -=
amount_in_interval`) are exact; the unguarded `u64` operations are wrapped.
`done` records the `if amount_left == 0 { break }` closing an iteration. -/
def sellStep (ts : TokenSettings) (curve_data : TokenPriceData)
    (target_amount : Nat) (s : SellState) (step : Nat) : SellState :=
  if s.done then s else
  let step_amount :=
    if step < NUM_OF_POINTS_IN_CURVE_DATA then curve_data.amount step
    else s.amount_left
  let price1 :=
    if step < NUM_OF_POINTS_IN_CURVE_DATA ∧
        curve_data.price step < s.current_price ∧
        ts.use_curve_data = USE_CURVE_DATA then
      curve_data.price step
    else s.current_price
  let offset1 := if step = NUM_OF_POINTS_IN_CURVE_DATA then 0 else s.curve_offset
  if step_amount ≤ offset1 then
    { s with curve_offset := offset1 - step_amount, current_price := price1 }
  else
    let interval0 := step_amount - offset1
    let amount_in_interval :=
      if interval0 > s.amount_left then s.amount_left else interval0
    let out1 :=
      wadd s.current_output_value
        (sellSliceOut ts.decimals ts.token_swap_fee_before_tw_bps
          ts.token_swap_fee_after_tw_bps target_amount price1
          s.current_amount amount_in_interval)
    let left1 := s.amount_left - amount_in_interval
    { current_amount := wadd s.current_amount amount_in_interval
      curve_offset := 0
      current_output_value := out1
      amount_left := left1
      current_price := price1
      done := decide (left1 = 0) }

/-- The value returned by `compute_value_of_sold_token`: run the loop over
`step = 0 .. 10` and read off `current_output_value`. -/
def soldValue (amount : Nat) (ts : TokenSettings) (price : OraclePrice)
    (start_amount target_amount : Nat) (curve_data : TokenPriceData) : Nat :=
  ((List.range (NUM_OF_POINTS_IN_CURVE_DATA + 1)).foldl
    (sellStep ts curve_data target_amount)
    (sellInit amount start_amount target_amount price.sell_price)).current_output_value

/-- Embedding of `SymmetryMath::compute_value_of_sold_token` (symmetry_token_swap.rs lines
57-136).  Every `?` in the body is applied to an always-`Ok` helper, so the
function always returns `Ok` of the loop's accumulator. -/
def computeValueOfSoldToken (amount : Nat) (ts : TokenSettings)
    (price : OraclePrice) (start_amount target_amount : Nat)
    (curve_data : TokenPriceData) : Except String Nat :=
  .ok (soldValue amount ts price start_amount target_amount curve_data)

/-- Mutable state of the `compute_amount_of_bought_token` loop
(symmetry_token_swap.rs lines 146-154). -/
structure BuyState where
  current_amount : Nat
  curve_offset : Nat
  current_output_amount : Nat
  value_left : Nat
  current_price : Nat
  done : Bool

/-- Initial state of the buy walker (symmetry_token_swap.rs lines 146-154). -/
def buyInit (value start_amount target_amount buy_price : Nat) : BuyState :=
  { current_amount := start_amount
    curve_offset :=
      if start_amount < target_amount then target_amount - start_amount else 0
    current_output_amount := 0
    value_left := value
    current_price := buy_price
    done := false }

/-- One iteration of the buy walker (symmetry_token_swap.rs lines 156-236), in
source order: pick `step_amount` (the terminal step synthesises
`usd_value_to_amount(value_left * 2, …)` at the price before any raise, with
the unchecked doubling wrapped); raise `current_price` to the curve price when
`step < 10`, the curve price is larger and `use_curve_data = 1`; clear
`curve_offset` on the terminal step; skip when `step_amount ≤ curve_offset`;
otherwise value the interval, clip it to `value_left` (recomputing the amount
from the clipped value), split at the target boundary in value space, subtract
fees, convert the net value back to an amount, accumulate, and decrease
`current_amount` with saturation at zero. -/
def buyStep (ts : TokenSettings) (curve_data : TokenPriceData)
    (target_amount : Nat) (s : BuyState) (step : Nat) : BuyState :=
  if s.done then s else
  let step_amount :=
    if step < NUM_OF_POINTS_IN_CURVE_DATA then curve_data.amount step
    else usdValueToAmount (wmul s.value_left 2) ts.decimals s.current_price
  let price1 :=
    if step < NUM_OF_POINTS_IN_CURVE_DATA ∧
        curve_data.price step > s.current_price ∧
        ts.use_curve_data = USE_CURVE_DATA then
      curve_data.price step
    else s.current_price
  let offset1 := if step = NUM_OF_POINTS_IN_CURVE_DATA then 0 else s.curve_offset
  if step_amount ≤ offset1 then
    { s with curve_offset := offset1 - step_amount, current_price := price1 }
  else
    let interval0 := step_amount - offset1
    let value0 := amountToUsdValue interval0 ts.decimals price1
    let value_in_interval := if value0 > s.value_left then s.value_left else value0
    let amount_in_interval :=
      if value0 > s.value_left then
        usdValueToAmount s.value_left ts.decimals price1
      else interval0
    let value_before_tw :=
      if s.current_amount ≤ target_amount then 0
      else if s.current_amount ≤ wadd target_amount amount_in_interval then
        wsub value_in_interval
          (amountToUsdValue
            (wsub (wadd target_amount amount_in_interval) s.current_amount)
            ts.decimals price1)
      else value_in_interval
    let value_after_tw := wsub value_in_interval value_before_tw
    let fees :=
      wadd (mulDiv value_before_tw ts.token_swap_fee_before_tw_bps BPS_DIVIDER)
        (mulDiv value_after_tw ts.token_swap_fee_after_tw_bps BPS_DIVIDER)
    let amount_bought := usdValueToAmount (wsub value_in_interval fees) ts.decimals price1
    let out1 := wadd s.current_output_amount amount_bought
    let left1 := s.value_left - value_in_interval
    { current_amount :=
        if amount_bought > s.current_amount then 0
        else s.current_amount - amount_bought
      curve_offset := 0
      current_output_amount := out1
      value_left := left1
      current_price := price1
      done := decide (left1 = 0) }

/-- The amount returned by `compute_amount_of_bought_token`: run the loop over
`step = 0 .. 10` and read off `current_output_amount`. -/
def boughtAmount (value : Nat) (ts : TokenSettings) (price : OraclePrice)
    (start_amount target_amount : Nat) (curve_data : TokenPriceData) : Nat :=
  ((List.range (NUM_OF_POINTS_IN_CURVE_DATA + 1)).foldl
    (buyStep ts curve_data target_amount)
    (buyInit value start_amount target_amount price.buy_price)).current_output_amount

/-- Embedding of `SymmetryMath::compute_amount_of_bought_token` (symmetry_token_swap.rs
lines 138-239).  Every `?` in the body is applied to an always-`Ok` helper, so
the function always returns `Ok` of the loop's accumulator. -/
def computeAmountOfBoughtToken (value : Nat) (ts : TokenSettings)
    (price : OraclePrice) (start_amount target_amount : Nat)
    (curve_data : TokenPriceData) : Except String Nat :=
  .ok (boughtAmount value ts price start_amount target_amount curve_data)

/-! ## Proof scaffolding: invariants of the sell walker -/

/-- Bounds maintained by the sell walker from the state
`sellInit A2 S target P0` (with `D = pow10w decimals`): the price only falls,
`current_output_value * D + amount_left * P0` never exceeds `A2 * P0`,
`current_amount + amount_left` never exceeds `S + A2`, and `amount_left` never
grows. -/
def sellBounds (P0 D S A2 : Nat) (t : SellState) : Prop :=
  t.current_price ≤ P0 ∧
  t.current_output_value * D + t.amount_left * P0 ≤ A2 * P0 ∧
  t.current_amount + t.amount_left ≤ S + A2 ∧
  t.amount_left ≤ A2

/-- Coupling between the runs of the sell walker on amounts `a ≤ A2` (state
`s`) and `A2` (state `t`): either the two runs are still in lockstep except
for `amount_left` (first disjunct), or run `s` is exhausted (it has broken out
of the loop or has nothing left to sell) and can only be behind. -/
def sellCoupled (P0 D S A2 : Nat) (s t : SellState) : Prop :=
  sellBounds P0 D S A2 t ∧
  s.current_amount + s.amount_left ≤ S + A2 ∧
  s.amount_left ≤ A2 ∧
  s.current_output_value ≤ t.current_output_value ∧
  ((s.done = false ∧ t.done = false ∧ s.current_amount = t.current_amount ∧
      s.curve_offset = t.curve_offset ∧ s.current_price = t.current_price ∧
      s.current_output_value = t.current_output_value ∧
      s.amount_left ≤ t.amount_left)
    ∨ (s.done = true ∨ s.amount_left = 0))

/-! ## Concrete fixtures used in claim-level theorems and witnesses -/

/-- The default ambient clock `Clock::default()` (slot 0, timestamp 0). -/
def clockZero : AmbientClock := { slot := 0, unix_timestamp := 0 }

/-- An ambient clock 100 seconds after the epoch. -/
def clockLate : AmbientClock := { slot := 0, unix_timestamp := 100 }

/-- An all-zero byte buffer of length `n`. -/
def zeroBuf (n : Nat) : Bytes := { len := n, byte := fun _ => 0 }

/-- Settings with the unknown `oracle_type = 2`. -/
def tsOracleType2 : TokenSettings := { defaultTokenSettings with oracle_type := 2 }

/-- Settings for a table oracle at index 0. -/
def tsTableIdx0 : TokenSettings := { defaultTokenSettings with oracle_type := 1 }

/-- Settings for a table oracle at index 50 (its timestamp read would need
bytes `817..825` of the 809-byte account). -/
def tsTableIdx50 : TokenSettings :=
  { defaultTokenSettings with oracle_type := 1, oracle_index := 50 }

/-- A Pyth-like oracle account with `expo = -12`, `valid_slot = 0`,
`price = 100`, `conf = 2^63` and `status = 1`.  `conf * 10` wraps to `0`, so
the 10%-band staleness check passes and `oracle_live` stays 1, while the
confidence terms dwarf the price. -/
def pythBufHugeConf : Bytes :=
  { len := 3312
    byte := fun i =>
      if i = 20 then 244 else if i = 21 then 255 else
      if i = 22 then 255 else if i = 23 then 255 else
      if i = 208 then 100 else
      if i = 223 then 128 else
      if i = 224 then 1 else 0 }

/-- Settings taking the full reported confidence (`oracle_confidence_pct =
100`). -/
def tsPythFullPct : TokenSettings :=
  { defaultTokenSettings with oracle_confidence_pct := 100 }

/-- A benign Pyth-like oracle account: `expo = -6`, `valid_slot = 1000`,
`price = 5_000_000` (i.e. 5 USD), `conf = 1000`, `status = 1`. -/
def pythBufNice : Bytes :=
  { len := 3312
    byte := fun i =>
      if i = 20 then 250 else if i = 21 then 255 else
      if i = 22 then 255 else if i = 23 then 255 else
      if i = 40 then 232 else if i = 41 then 3 else
      if i = 208 then 64 else if i = 209 then 75 else if i = 210 then 76 else
      if i = 216 then 232 else if i = 217 then 3 else
      if i = 224 then 1 else 0 }

/-- Settings with a 10% oracle confidence share and 50 bps fixed confidence. -/
def tsPythNice : TokenSettings :=
  { defaultTokenSettings with oracle_confidence_pct := 10, fixed_confidence_bps := 50 }

/-- A `TokenList` account of the correct size whose `num_tokens` field decodes
to 101. -/
def tokenListBuf101 : Bytes :=
  { len := 39816, byte := fun i => if i = 8 then 101 else 0 }

/-- Settings for the curve-kick scenario: 6 decimals, `use_curve_data = 1`,
both swap fees 0. -/
def tsCurveKick : TokenSettings :=
  { defaultTokenSettings with decimals := 6, use_curve_data := 1 }

/-- Sell curve whose first point is `amount = 50_000`,
`price = 0.9 * ONE_USD`; all other points zero. -/
def curveSellKick : TokenPriceData :=
  { amount := fun k => if k = 0 then 50000 else 0
    price := fun k => if k = 0 then 900000000000 else 0 }

/-- An oracle price of exactly 1 USD on all three legs. -/
def priceOneUsd : OraclePrice :=
  { sell_price := ONE_USD, avg_price := ONE_USD, buy_price := ONE_USD, oracle_live := 1 }

/-- Buy-side settings with 0 decimals, a 255 bps after-target fee and a zero
before-target fee. -/
def tsBuyFee : TokenSettings :=
  { defaultTokenSettings with use_curve_data := 1, token_swap_fee_after_tw_bps := 255 }

/-- Buy curve whose first point has `amount = 41` (price 0 everywhere). -/
def curveBuy41 : TokenPriceData :=
  { amount := fun k => if k = 0 then 41 else 0, price := fun _ => 0 }

/-- An oracle price whose buy leg is 100 (in `ONE_USD` units per whole token). -/
def priceBuy100 : OraclePrice :=
  { sell_price := 0, avg_price := 0, buy_price := 100, oracle_live := 1 }

/-- The all-zero curve table. -/
def curveZero : TokenPriceData := { amount := fun _ => 0, price := fun _ => 0 }

/-- An oracle price of 1 smallest-USD-unit on all three legs. -/
def priceUnit : OraclePrice :=
  { sell_price := 1, avg_price := 1, buy_price := 1, oracle_live := 1 }

/-- Settings with `use_curve_data = 1` and all other fields default. -/
def tsCurveOn : TokenSettings := { defaultTokenSettings with use_curve_data := 1 }

/-- An oracle price of 5 on all three legs. -/
def priceFive : OraclePrice :=
  { sell_price := 5, avg_price := 5, buy_price := 5, oracle_live := 1 }

/-! ## Theorems: basic arithmetic facts -/

theorem U64MOD_eq : U64MOD = 2 ^ 64 := by decide

theorem U64MOD_pos : 0 < U64MOD := by decide

theorem wadd_lt (x y : Nat) : wadd x y < U64MOD := Nat.mod_lt _ U64MOD_pos

theorem wsub_lt (x y : Nat) : wsub x y < U64MOD := Nat.mod_lt _ U64MOD_pos

theorem wadd_eq_add {x y : Nat} (h : x + y < U64MOD) : wadd x y = x + y :=
  Nat.mod_eq_of_lt h

theorem wsub_eq_sub {x y : Nat} (hx : x < U64MOD) (hyx : y ≤ x) :
    wsub x y = x - y := by
  have hy : y < U64MOD := Nat.lt_of_le_of_lt hyx hx
  unfold wsub
  rw [Nat.mod_eq_of_lt hx, Nat.mod_eq_of_lt hy]
  rw [show x + U64MOD - y = (x - y) + U64MOD by omega]
  rw [Nat.add_mod_right, Nat.mod_eq_of_lt (by omega)]

theorem mulDiv_le (a b c : Nat) : mulDiv a b c ≤ a * b / c := by
  unfold mulDiv
  split
  · exact Nat.zero_le _
  · split
    · exact Nat.le_refl _
    · exact Nat.zero_le _

theorem mulDiv_eq {a b c : Nat} (hc : c ≠ 0) (h : a * b / c < U64MOD) :
    mulDiv a b c = a * b / c := by
  unfold mulDiv
  rw [if_neg hc, if_pos h]

theorem mulDiv_zero_left (b c : Nat) : mulDiv 0 b c = 0 := by
  unfold mulDiv
  split
  · rfl
  · simp

theorem mulDiv_zero_mid (a c : Nat) : mulDiv a 0 c = 0 := by
  unfold mulDiv
  split
  · rfl
  · simp

theorem mulDiv_lt (a b c : Nat) : mulDiv a b c < U64MOD := by
  unfold mulDiv
  split
  · exact U64MOD_pos
  · split
    · assumption
    · exact U64MOD_pos

theorem mulDiv_eq_zero_iff (a b c : Nat) :
    mulDiv a b c = 0 ↔ c = 0 ∨ a * b / c = 0 ∨ U64MOD ≤ a * b / c := by
  unfold mulDiv
  split
  · simp [*]
  · split
    · constructor
      · intro h; exact Or.inr (Or.inl h)
      · intro h
        rcases h with h | h | h
        · exact absurd h (by assumption)
        · exact h
        · omega
    · constructor
      · intro _
        exact Or.inr (Or.inr (by omega))
      · intro _; rfl

theorem readLE_lt (d : Bytes) (off n : Nat) : readLE d off n < 256 ^ n := by
  induction n generalizing off with
  | zero => simp [readLE]
  | succ m ih =>
    have h8 : readU8 d off < 256 := Nat.mod_lt _ (by decide)
    have := ih (off + 1)
    calc readU8 d off + 256 * readLE d (off + 1) m
        ≤ 255 + 256 * readLE d (off + 1) m := by omega
      _ < 256 ^ (m + 1) := by
          rw [Nat.pow_succ]
          omega

theorem readU64_lt (d : Bytes) (off : Nat) : readU64 d off < U64MOD := by
  have := readLE_lt d off 8
  have h : (256 : Nat) ^ 8 = U64MOD := by decide
  rw [← h]; exact this

theorem wadd_zero_zero : wadd 0 0 = 0 := by decide

theorem wsub_zero_zero : wsub 0 0 = 0 := by decide

theorem wadd_zero_right {x : Nat} (hx : x < U64MOD) : wadd x 0 = x := by
  unfold wadd
  exact Nat.mod_eq_of_lt (by omega)

theorem div_add_div_le (x y D : Nat) : x / D + y / D ≤ (x + y) / D := by
  rcases Nat.eq_zero_or_pos D with h | h
  · subst h; simp
  · rw [Nat.le_div_iff_mul_le h]
    have hx := Nat.div_mul_le_self x D
    have hy := Nat.div_mul_le_self y D
    have : (x / D + y / D) * D = x / D * D + y / D * D := by ring
    omega

theorem mulDiv_fee_le {v f : Nat} (hf : f ≤ BPS_DIVIDER) :
    mulDiv v f BPS_DIVIDER ≤ v := by
  have h1 : v * f / BPS_DIVIDER ≤ v := by
    have h2 : v * f ≤ v * BPS_DIVIDER := Nat.mul_le_mul_left v hf
    have h3 : v * f / BPS_DIVIDER ≤ v * BPS_DIVIDER / BPS_DIVIDER :=
      Nat.div_le_div_right h2
    have h4 : v * BPS_DIVIDER / BPS_DIVIDER = v :=
      Nat.mul_div_cancel v (by decide)
    omega
  exact le_trans (mulDiv_le _ _ _) h1

theorem mulDiv_fee_exact {v f : Nat} (hf : f ≤ BPS_DIVIDER) (hv : v < U64MOD) :
    mulDiv v f BPS_DIVIDER = v * f / BPS_DIVIDER := by
  apply mulDiv_eq (by decide)
  have h2 : v * f ≤ v * BPS_DIVIDER := Nat.mul_le_mul_left v hf
  have h3 : v * f / BPS_DIVIDER ≤ v * BPS_DIVIDER / BPS_DIVIDER :=
    Nat.div_le_div_right h2
  have h4 : v * BPS_DIVIDER / BPS_DIVIDER = v :=
    Nat.mul_div_cancel v (by decide)
  omega

theorem fee_net_mono {x y f : Nat} (hf : f ≤ BPS_DIVIDER) (hxy : x ≤ y)
    (hy : y < U64MOD) :
    x - mulDiv x f BPS_DIVIDER ≤ y - mulDiv y f BPS_DIVIDER := by
  rw [mulDiv_fee_exact hf (by omega), mulDiv_fee_exact hf hy]
  have key : y * f / BPS_DIVIDER ≤ x * f / BPS_DIVIDER + (y - x) := by
    have h1 : y * f ≤ x * f + (y - x) * BPS_DIVIDER := by
      have : y * f = x * f + (y - x) * f := by
        rw [← Nat.add_mul]
        congr 1
        omega
      have h2 : (y - x) * f ≤ (y - x) * BPS_DIVIDER :=
        Nat.mul_le_mul_left _ hf
      omega
    have h3 : y * f / BPS_DIVIDER ≤ (x * f + (y - x) * BPS_DIVIDER) / BPS_DIVIDER :=
      Nat.div_le_div_right h1
    have h4 : (x * f + (y - x) * BPS_DIVIDER) / BPS_DIVIDER
        = x * f / BPS_DIVIDER + (y - x) :=
      Nat.add_mul_div_right _ _ (by decide)
    omega
  have hx1 : x * f / BPS_DIVIDER ≤ x := by
    have h2 : x * f ≤ x * BPS_DIVIDER := Nat.mul_le_mul_left x hf
    have h3 : x * f / BPS_DIVIDER ≤ x * BPS_DIVIDER / BPS_DIVIDER :=
      Nat.div_le_div_right h2
    have h4 : x * BPS_DIVIDER / BPS_DIVIDER = x := Nat.mul_div_cancel x (by decide)
    omega
  have hy1 : y * f / BPS_DIVIDER ≤ y := by
    have h2 : y * f ≤ y * BPS_DIVIDER := Nat.mul_le_mul_left y hf
    have h3 : y * f / BPS_DIVIDER ≤ y * BPS_DIVIDER / BPS_DIVIDER :=
      Nat.div_le_div_right h2
    have h4 : y * BPS_DIVIDER / BPS_DIVIDER = y := Nat.mul_div_cancel y (by decide)
    omega
  omega

theorem sellBeforeTw_eq {T cur i : Nat} (h : cur + i < U64MOD) :
    sellBeforeTw T cur i =
      if cur ≥ T then 0 else if cur + i ≥ T then i - (cur + i - T) else i := by
  unfold sellBeforeTw
  rw [wadd_eq_add h]
  split
  · rfl
  · split
    · rw [wsub_eq_sub h (by omega), wsub_eq_sub (by omega) (by omega)]
    · rfl

theorem sellBeforeTw_le {T cur i : Nat} (h : cur + i < U64MOD) :
    sellBeforeTw T cur i ≤ i := by
  rw [sellBeforeTw_eq h]
  split
  · omega
  · split <;> omega

theorem sellSliceOut_zero_price (dec fb fa T cur i : Nat) :
    sellSliceOut dec fb fa T 0 cur i = 0 := by
  unfold sellSliceOut
  simp only [amountToUsdValue, mulDiv_zero_mid, mulDiv_zero_left,
    wadd_zero_zero, wsub_zero_zero]

theorem sellSliceOut_zero_amount (dec fb fa T p cur : Nat) (hcur : cur < U64MOD) :
    sellSliceOut dec fb fa T p cur 0 = 0 := by
  unfold sellSliceOut
  have hb : sellBeforeTw T cur 0 = 0 := by
    rw [sellBeforeTw_eq (by omega)]
    split
    · rfl
    · split <;> omega
  rw [hb]
  simp only [wsub_zero_zero, amountToUsdValue, mulDiv_zero_left,
    wadd_zero_zero, wsub_zero_zero]

theorem fee_net_div_mono {x y f : Nat} (hf : f ≤ BPS_DIVIDER) (hxy : x ≤ y) :
    x - x * f / BPS_DIVIDER ≤ y - y * f / BPS_DIVIDER := by
  have key : y * f / BPS_DIVIDER ≤ x * f / BPS_DIVIDER + (y - x) := by
    have h1 : y * f ≤ x * f + (y - x) * BPS_DIVIDER := by
      have h0 : y * f = x * f + (y - x) * f := by
        rw [← Nat.add_mul]
        congr 1
        omega
      have h2 : (y - x) * f ≤ (y - x) * BPS_DIVIDER :=
        Nat.mul_le_mul_left _ hf
      omega
    have h3 : y * f / BPS_DIVIDER ≤ (x * f + (y - x) * BPS_DIVIDER) / BPS_DIVIDER :=
      Nat.div_le_div_right h1
    have h4 : (x * f + (y - x) * BPS_DIVIDER) / BPS_DIVIDER
        = x * f / BPS_DIVIDER + (y - x) :=
      Nat.add_mul_div_right _ _ (by decide)
    omega
  have hx1 : x * f / BPS_DIVIDER ≤ x := by
    have h2 : x * f ≤ x * BPS_DIVIDER := Nat.mul_le_mul_left x hf
    have h3 : x * f / BPS_DIVIDER ≤ x * BPS_DIVIDER / BPS_DIVIDER :=
      Nat.div_le_div_right h2
    have h4 : x * BPS_DIVIDER / BPS_DIVIDER = x := Nat.mul_div_cancel x (by decide)
    omega
  have hy1 : y * f / BPS_DIVIDER ≤ y := by
    have h2 : y * f ≤ y * BPS_DIVIDER := Nat.mul_le_mul_left y hf
    have h3 : y * f / BPS_DIVIDER ≤ y * BPS_DIVIDER / BPS_DIVIDER :=
      Nat.div_le_div_right h2
    have h4 : y * BPS_DIVIDER / BPS_DIVIDER = y := Nat.mul_div_cancel y (by decide)
    omega
  omega

theorem sellSliceOut_spec (dec fb fa T p cur i D : Nat)
    (hD : D = pow10w dec) (hfb : fb ≤ BPS_DIVIDER) (hfa : fa ≤ BPS_DIVIDER)
    (hcuri : cur + i < U64MOD) (hsat : i * p < U64MOD * D) :
    sellSliceOut dec fb fa T p cur i =
      (sellBeforeTw T cur i * p / D
        - sellBeforeTw T cur i * p / D * fb / BPS_DIVIDER)
      + ((i - sellBeforeTw T cur i) * p / D
        - (i - sellBeforeTw T cur i) * p / D * fa / BPS_DIVIDER)
    ∧ sellSliceOut dec fb fa T p cur i ≤ i * p / D := by
  have hD0 : 0 < D := by
    rcases Nat.eq_zero_or_pos D with h | h
    · rw [h, Nat.mul_zero] at hsat
      exact absurd hsat (Nat.not_lt_zero _)
    · exact h
  have hi : i < U64MOD := by omega
  have hble : sellBeforeTw T cur i ≤ i := sellBeforeTw_le hcuri
  set b := sellBeforeTw T cur i with hbdef
  have hbp : b * p ≤ i * p := Nat.mul_le_mul_right p hble
  have hap : (i - b) * p ≤ i * p := Nat.mul_le_mul_right p (by omega)
  have hvb : mulDiv b p D = b * p / D :=
    mulDiv_eq (by omega) ((Nat.div_lt_iff_lt_mul hD0).mpr (by omega))
  have hva : mulDiv (i - b) p D = (i - b) * p / D :=
    mulDiv_eq (by omega) ((Nat.div_lt_iff_lt_mul hD0).mpr (by omega))
  have hsplit : b * p + (i - b) * p = i * p := by
    rw [← Nat.add_mul]
    congr 1
    omega
  have hsum : b * p / D + (i - b) * p / D ≤ i * p / D := by
    have := div_add_div_le (b * p) ((i - b) * p) D
    rw [hsplit] at this
    exact this
  have hipD : i * p / D < U64MOD := (Nat.div_lt_iff_lt_mul hD0).mpr (by omega)
  have hf1 : mulDiv (b * p / D) fb BPS_DIVIDER = b * p / D * fb / BPS_DIVIDER :=
    mulDiv_fee_exact hfb (by omega)
  have hf2 : mulDiv ((i - b) * p / D) fa BPS_DIVIDER
      = (i - b) * p / D * fa / BPS_DIVIDER :=
    mulDiv_fee_exact hfa (by omega)
  have hf1le : b * p / D * fb / BPS_DIVIDER ≤ b * p / D := by
    have := @mulDiv_fee_le (b * p / D) fb hfb
    omega
  have hf2le : (i - b) * p / D * fa / BPS_DIVIDER ≤ (i - b) * p / D := by
    have := @mulDiv_fee_le ((i - b) * p / D) fa hfa
    omega
  have hout : sellSliceOut dec fb fa T p cur i =
      (b * p / D - b * p / D * fb / BPS_DIVIDER)
      + ((i - b) * p / D - (i - b) * p / D * fa / BPS_DIVIDER) := by
    unfold sellSliceOut
    simp only [← hbdef, amountToUsdValue, ← hD]
    rw [wsub_eq_sub hi hble, hvb, hva, hf1, hf2]
    rw [@wadd_eq_add (b * p / D) ((i - b) * p / D) (by omega)]
    rw [@wadd_eq_add (b * p / D * fb / BPS_DIVIDER)
      ((i - b) * p / D * fa / BPS_DIVIDER) (by omega)]
    rw [wsub_eq_sub (by omega) (by omega)]
    omega
  refine ⟨hout, ?_⟩
  rw [hout]
  omega

theorem sellSliceOut_mono (dec fb fa T p cur D : Nat) {i i' : Nat}
    (hD : D = pow10w dec) (hii : i ≤ i')
    (hfb : fb ≤ BPS_DIVIDER) (hfa : fa ≤ BPS_DIVIDER)
    (hcuri : cur + i' < U64MOD) (hsat : i' * p < U64MOD * D) :
    sellSliceOut dec fb fa T p cur i ≤ sellSliceOut dec fb fa T p cur i' := by
  have hmul : i * p ≤ i' * p := Nat.mul_le_mul_right p hii
  obtain ⟨he, _⟩ :=
    sellSliceOut_spec dec fb fa T p cur i D hD hfb hfa (by omega) (by omega)
  obtain ⟨he', _⟩ :=
    sellSliceOut_spec dec fb fa T p cur i' D hD hfb hfa hcuri hsat
  rw [he, he']
  have hb := @sellBeforeTw_eq T cur i (by omega)
  have hb' := @sellBeforeTw_eq T cur i' hcuri
  have h1 : sellBeforeTw T cur i ≤ sellBeforeTw T cur i' := by
    rw [hb, hb']
    split_ifs <;> omega
  have h2 : i - sellBeforeTw T cur i ≤ i' - sellBeforeTw T cur i' := by
    rw [hb, hb']
    split_ifs <;> omega
  have hvb : sellBeforeTw T cur i * p / D ≤ sellBeforeTw T cur i' * p / D :=
    Nat.div_le_div_right (Nat.mul_le_mul_right p h1)
  have hva : (i - sellBeforeTw T cur i) * p / D
      ≤ (i' - sellBeforeTw T cur i') * p / D :=
    Nat.div_le_div_right (Nat.mul_le_mul_right p h2)
  have m1 := @fee_net_div_mono _ _ fb hfb hvb
  have m2 := @fee_net_div_mono _ _ fa hfa hva
  omega

theorem sellStep_of_done (ts : TokenSettings) (curve_data : TokenPriceData)
    (target_amount k : Nat) (s : SellState) (h : s.done = true) :
    sellStep ts curve_data target_amount s k = s := by
  unfold sellStep
  rw [h]
  rfl

theorem sellStep_progress (ts : TokenSettings) (curve_data : TokenPriceData)
    (target_amount P0 S A2 : Nat) (k : Nat) (t : SellState)
    (hfb : ts.token_swap_fee_before_tw_bps ≤ BPS_DIVIDER)
    (hfa : ts.token_swap_fee_after_tw_bps ≤ BPS_DIVIDER)
    (hbound : A2 * P0 < U64MOD * pow10w ts.decimals)
    (hstart : S + A2 < U64MOD)
    (ht : sellBounds P0 (pow10w ts.decimals) S A2 t) :
    sellBounds P0 (pow10w ts.decimals) S A2
        (sellStep ts curve_data target_amount t k) ∧
      t.current_output_value ≤
        (sellStep ts curve_data target_amount t k).current_output_value := by
  obtain ⟨hp, hb, hsum, hleft⟩ := ht
  have hD0 : 0 < pow10w ts.decimals := by
    rcases Nat.eq_zero_or_pos (pow10w ts.decimals) with h | h
    · rw [h, Nat.mul_zero] at hbound; omega
    · exact h
  cases hdone : t.done with
  | true =>
    rw [sellStep_of_done _ _ _ _ _ hdone]
    exact ⟨⟨hp, hb, hsum, hleft⟩, le_refl _⟩
  | false =>
    unfold sellStep
    rw [hdone]
    simp only [Bool.false_eq_true, if_false]
    set sa := if k < NUM_OF_POINTS_IN_CURVE_DATA then curve_data.amount k
      else t.amount_left with hsadef
    set p1 := if k < NUM_OF_POINTS_IN_CURVE_DATA ∧
        curve_data.price k < t.current_price ∧
        ts.use_curve_data = USE_CURVE_DATA then curve_data.price k
      else t.current_price with hp1def
    set o1 := if k = NUM_OF_POINTS_IN_CURVE_DATA then 0 else t.curve_offset
      with ho1def
    have hp1 : p1 ≤ P0 := by
      rw [hp1def]
      split
      · next hc => omega
      · exact hp
    by_cases hskip : sa ≤ o1
    · rw [if_pos hskip]
      exact ⟨⟨hp1, hb, hsum, hleft⟩, le_refl _⟩
    · rw [if_neg hskip]
      set i := if sa - o1 > t.amount_left then t.amount_left else sa - o1
        with hidef
      have hi_le : i ≤ t.amount_left := by
        rw [hidef]; split <;> omega
      have hiA2 : i ≤ A2 := le_trans hi_le hleft
      have hcuri : t.current_amount + i < U64MOD := by omega
      have hip : i * p1 ≤ A2 * P0 := Nat.mul_le_mul hiA2 hp1
      have hslice := sellSliceOut_spec ts.decimals
        ts.token_swap_fee_before_tw_bps ts.token_swap_fee_after_tw_bps
        target_amount p1 t.current_amount i (pow10w ts.decimals) rfl hfb hfa
        hcuri (by omega)
      set slice := sellSliceOut ts.decimals ts.token_swap_fee_before_tw_bps
        ts.token_swap_fee_after_tw_bps target_amount p1 t.current_amount i
        with hslicedef
      have hsliceD : slice * pow10w ts.decimals ≤ i * p1 := by
        have h1 : slice ≤ i * p1 / pow10w ts.decimals := hslice.2
        have h2 : slice * pow10w ts.decimals
            ≤ i * p1 / pow10w ts.decimals * pow10w ts.decimals :=
          Nat.mul_le_mul_right _ h1
        have h3 := Nat.div_mul_le_self (i * p1) (pow10w ts.decimals)
        omega
      have hipP0 : i * p1 ≤ i * P0 := Nat.mul_le_mul_left i hp1
      have hiP0left : i * P0 ≤ t.amount_left * P0 := Nat.mul_le_mul_right P0 hi_le
      have houtslice : (t.current_output_value + slice) * pow10w ts.decimals
          ≤ t.current_output_value * pow10w ts.decimals + i * p1 := by
        rw [Nat.add_mul]
        omega
      have houtlt : t.current_output_value + slice < U64MOD := by
        by_contra hcon
        push_neg at hcon
        have h1 : U64MOD * pow10w ts.decimals
            ≤ (t.current_output_value + slice) * pow10w ts.decimals :=
          Nat.mul_le_mul_right _ hcon
        omega
      have hsubmul : (t.amount_left - i) * P0 = t.amount_left * P0 - i * P0 :=
        Nat.sub_mul _ _ _
      constructor
      · refine ⟨hp1, ?_, ?_, ?_⟩
        · show wadd t.current_output_value slice * pow10w ts.decimals
            + (t.amount_left - i) * P0 ≤ A2 * P0
          rw [wadd_eq_add houtlt]
          omega
        · show wadd t.current_amount i + (t.amount_left - i) ≤ S + A2
          rw [wadd_eq_add hcuri]
          omega
        · show t.amount_left - i ≤ A2
          omega
      · show t.current_output_value ≤ wadd t.current_output_value slice
        rw [wadd_eq_add houtlt]
        omega

theorem sellStep_zero_left (ts : TokenSettings) (curve_data : TokenPriceData)
    (target_amount k : Nat) (s : SellState)
    (hdone : s.done = false) (hleft : s.amount_left = 0)
    (hout : s.current_output_value < U64MOD)
    (hcur : s.current_amount < U64MOD) :
    (sellStep ts curve_data target_amount s k).current_output_value
        = s.current_output_value ∧
      (sellStep ts curve_data target_amount s k).amount_left = 0 ∧
      (sellStep ts curve_data target_amount s k).current_amount
        = s.current_amount := by
  unfold sellStep
  rw [hdone]
  simp only [Bool.false_eq_true, if_false]
  set sa := if k < NUM_OF_POINTS_IN_CURVE_DATA then curve_data.amount k
    else s.amount_left with hsadef
  set o1 := if k = NUM_OF_POINTS_IN_CURVE_DATA then 0 else s.curve_offset
    with ho1def
  by_cases hskip : sa ≤ o1
  · rw [if_pos hskip]
    exact ⟨rfl, hleft, rfl⟩
  · rw [if_neg hskip]
    set i := if sa - o1 > s.amount_left then s.amount_left else sa - o1
      with hidef
    have hi0 : i = 0 := by
      rw [hidef, hleft]
      split <;> omega
    refine ⟨?_, ?_, ?_⟩
    · show wadd s.current_output_value _ = s.current_output_value
      rw [hi0, sellSliceOut_zero_amount _ _ _ _ _ _ hcur, wadd_zero_right hout]
    · show s.amount_left - i = 0
      omega
    · show wadd s.current_amount i = s.current_amount
      rw [hi0, wadd_zero_right hcur]

theorem sell_slice_budget (dec fb fa T P0 A2 cur p1 i out left D : Nat)
    (hD : D = pow10w dec)
    (hfb : fb ≤ BPS_DIVIDER) (hfa : fa ≤ BPS_DIVIDER)
    (hp1 : p1 ≤ P0) (hile : i ≤ left) (hleftA2 : left ≤ A2)
    (hbb : out * D + left * P0 ≤ A2 * P0)
    (hbound : A2 * P0 < U64MOD * D)
    (hcuri : cur + i < U64MOD) :
    out + sellSliceOut dec fb fa T p1 cur i < U64MOD ∧
      (out + sellSliceOut dec fb fa T p1 cur i) * D + (left - i) * P0
        ≤ A2 * P0 := by
  have hD0 : 0 < D := by
    rcases Nat.eq_zero_or_pos D with h | h
    · rw [h, Nat.mul_zero] at hbound; omega
    · exact h
  have hiA2 : i ≤ A2 := le_trans hile hleftA2
  have hip : i * p1 ≤ A2 * P0 := Nat.mul_le_mul hiA2 hp1
  have hslice := sellSliceOut_spec dec fb fa T p1 cur i D hD hfb hfa hcuri
    (by omega)
  set slice := sellSliceOut dec fb fa T p1 cur i with hslicedef
  have hsliceD : slice * D ≤ i * p1 := by
    have h1 : slice ≤ i * p1 / D := hslice.2
    have h2 : slice * D ≤ i * p1 / D * D := Nat.mul_le_mul_right _ h1
    have h3 := Nat.div_mul_le_self (i * p1) D
    omega
  have hipP0 : i * p1 ≤ i * P0 := Nat.mul_le_mul_left i hp1
  have hiP0left : i * P0 ≤ left * P0 := Nat.mul_le_mul_right P0 hile
  have hadd : (out + slice) * D = out * D + slice * D := Nat.add_mul _ _ _
  have hsubmul : (left - i) * P0 = left * P0 - i * P0 := Nat.sub_mul _ _ _
  constructor
  · by_contra hcon
    push_neg at hcon
    have h1 : U64MOD * D ≤ (out + slice) * D := Nat.mul_le_mul_right _ hcon
    omega
  · omega

theorem sellStep_coupled (ts : TokenSettings) (curve_data : TokenPriceData)
    (target_amount P0 S A2 : Nat) (k : Nat) (s t : SellState)
    (hfb : ts.token_swap_fee_before_tw_bps ≤ BPS_DIVIDER)
    (hfa : ts.token_swap_fee_after_tw_bps ≤ BPS_DIVIDER)
    (hbound : A2 * P0 < U64MOD * pow10w ts.decimals)
    (hstart : S + A2 < U64MOD)
    (hk : k ≤ NUM_OF_POINTS_IN_CURVE_DATA)
    (h : sellCoupled P0 (pow10w ts.decimals) S A2 s t) :
    sellCoupled P0 (pow10w ts.decimals) S A2
      (sellStep ts curve_data target_amount s k)
      (sellStep ts curve_data target_amount t k) := by
  obtain ⟨⟨hp, hbb, hsum, hleftA2⟩, hsums, hslefts, houtle, hphase⟩ := h
  have hD0 : 0 < pow10w ts.decimals := by
    rcases Nat.eq_zero_or_pos (pow10w ts.decimals) with hh | hh
    · rw [hh, Nat.mul_zero] at hbound; omega
    · exact hh
  have htoutlt : t.current_output_value < U64MOD := by
    by_contra hcon
    push_neg at hcon
    have h1 : U64MOD * pow10w ts.decimals
        ≤ t.current_output_value * pow10w ts.decimals :=
      Nat.mul_le_mul_right _ hcon
    omega
  have hsoutlt : s.current_output_value < U64MOD := lt_of_le_of_lt houtle htoutlt
  have hscurlt : s.current_amount < U64MOD := by omega
  have hprog := sellStep_progress ts curve_data target_amount P0 S A2 k t
    hfb hfa hbound hstart ⟨hp, hbb, hsum, hleftA2⟩
  obtain ⟨hbt', houtgrow⟩ := hprog
  rcases hphase with ⟨hsd, htd, hceq, hoeq, hpeq, houteq, hlle⟩ | hB
  · -- phase A: lockstep except for amount_left
    have hsp : s.current_price ≤ P0 := by rw [hpeq]; exact hp
    have hbb2 : s.current_output_value * pow10w ts.decimals
        + t.amount_left * P0 ≤ A2 * P0 := by rw [houteq]; exact hbb
    have hsum2 : s.current_amount + t.amount_left ≤ S + A2 := by
      rw [hceq]; exact hsum
    unfold sellStep
    simp only [hsd, htd, Bool.false_eq_true, if_false]
    rw [← hceq, ← hoeq, ← hpeq, ← houteq]
    set p1 := if k < NUM_OF_POINTS_IN_CURVE_DATA ∧
        curve_data.price k < s.current_price ∧
        ts.use_curve_data = USE_CURVE_DATA then curve_data.price k
      else s.current_price with hp1def
    have hp1P0 : p1 ≤ P0 := by
      rw [hp1def]
      split
      · next hc => omega
      · exact hsp
    rcases Nat.lt_or_ge k NUM_OF_POINTS_IN_CURVE_DATA with hk10 | hk10
    · -- non-terminal step: both runs see the same capacity and offset
      have hkne : k ≠ NUM_OF_POINTS_IN_CURVE_DATA := by omega
      simp only [if_pos hk10, if_neg hkne]
      by_cases hskip : curve_data.amount k ≤ s.curve_offset
      · rw [if_pos hskip, if_pos hskip]
        exact ⟨⟨hp1P0, hbb2, hsum2, hleftA2⟩, hsums, hslefts, le_refl _,
          Or.inl ⟨rfl, rfl, rfl, rfl, rfl, rfl, hlle⟩⟩
      · rw [if_neg hskip, if_neg hskip]
        set iS := if curve_data.amount k - s.curve_offset > s.amount_left
          then s.amount_left else curve_data.amount k - s.curve_offset
          with hiSdef
        set iT := if curve_data.amount k - s.curve_offset > t.amount_left
          then t.amount_left else curve_data.amount k - s.curve_offset
          with hiTdef
        have hiS_cases : (iS = s.amount_left ∧
              s.amount_left ≤ curve_data.amount k - s.curve_offset) ∨
            (iS = curve_data.amount k - s.curve_offset ∧
              curve_data.amount k - s.curve_offset ≤ s.amount_left) := by
          rw [hiSdef]
          split
          · next hg => exact Or.inl ⟨rfl, by omega⟩
          · next hg => exact Or.inr ⟨rfl, by omega⟩
        have hiT_cases : (iT = t.amount_left ∧
              t.amount_left ≤ curve_data.amount k - s.curve_offset) ∨
            (iT = curve_data.amount k - s.curve_offset ∧
              curve_data.amount k - s.curve_offset ≤ t.amount_left) := by
          rw [hiTdef]
          split
          · next hg => exact Or.inl ⟨rfl, by omega⟩
          · next hg => exact Or.inr ⟨rfl, by omega⟩
        have hiS_le : iS ≤ s.amount_left := by
          rcases hiS_cases with ⟨e, l⟩ | ⟨e, l⟩ <;> omega
        have hiT_le : iT ≤ t.amount_left := by
          rcases hiT_cases with ⟨e, l⟩ | ⟨e, l⟩ <;> omega
        have hii : iS ≤ iT := by
          rcases hiS_cases with ⟨e1, l1⟩ | ⟨e1, l1⟩ <;>
            rcases hiT_cases with ⟨e2, l2⟩ | ⟨e2, l2⟩ <;> omega
        have hcurT : s.current_amount + iT < U64MOD := by omega
        have hsatT : iT * p1 < U64MOD * pow10w ts.decimals := by
          have h1 : iT * p1 ≤ A2 * P0 :=
            Nat.mul_le_mul (le_trans hiT_le hleftA2) hp1P0
          omega
        have hmono := sellSliceOut_mono ts.decimals
          ts.token_swap_fee_before_tw_bps ts.token_swap_fee_after_tw_bps
          target_amount p1 s.current_amount (pow10w ts.decimals) rfl hii
          hfb hfa hcurT hsatT
        have hbudget := sell_slice_budget ts.decimals
          ts.token_swap_fee_before_tw_bps ts.token_swap_fee_after_tw_bps
          target_amount P0 A2 s.current_amount p1 iT
          s.current_output_value t.amount_left (pow10w ts.decimals) rfl
          hfb hfa hp1P0 hiT_le hleftA2 hbb2 hbound hcurT
        set sliceS := sellSliceOut ts.decimals ts.token_swap_fee_before_tw_bps
          ts.token_swap_fee_after_tw_bps target_amount p1 s.current_amount iS
          with hsliceSdef
        set sliceT := sellSliceOut ts.decimals ts.token_swap_fee_before_tw_bps
          ts.token_swap_fee_after_tw_bps target_amount p1 s.current_amount iT
          with hsliceTdef
        have hcollT : wadd s.current_output_value sliceT
            = s.current_output_value + sliceT := wadd_eq_add hbudget.1
        have hcollS : wadd s.current_output_value sliceS
            = s.current_output_value + sliceS := wadd_eq_add (by omega)
        have hcurcollT : wadd s.current_amount iT = s.current_amount + iT :=
          wadd_eq_add hcurT
        have hcurcollS : wadd s.current_amount iS = s.current_amount + iS :=
          wadd_eq_add (by omega)
        refine ⟨⟨hp1P0, ?_, ?_, ?_⟩, ?_, ?_, ?_, ?_⟩
        · show wadd s.current_output_value sliceT * pow10w ts.decimals
            + (t.amount_left - iT) * P0 ≤ A2 * P0
          rw [hcollT]
          exact hbudget.2
        · show wadd s.current_amount iT + (t.amount_left - iT) ≤ S + A2
          rw [hcurcollT]
          omega
        · show t.amount_left - iT ≤ A2
          omega
        · show wadd s.current_amount iS + (s.amount_left - iS) ≤ S + A2
          rw [hcurcollS]
          omega
        · show s.amount_left - iS ≤ A2
          omega
        · show wadd s.current_output_value sliceS
            ≤ wadd s.current_output_value sliceT
          rw [hcollS, hcollT]
          omega
        · by_cases hz : s.amount_left - iS = 0
          · exact Or.inr (Or.inr hz)
          · have hiST : iS = iT := by
              rcases hiS_cases with ⟨e1, l1⟩ | ⟨e1, l1⟩ <;>
                rcases hiT_cases with ⟨e2, l2⟩ | ⟨e2, l2⟩ <;> omega
            refine Or.inl ⟨?_, ?_, ?_, rfl, rfl, ?_, ?_⟩
            · show decide (s.amount_left - iS = 0) = false
              simp [hz]
            · show decide (t.amount_left - iT = 0) = false
              have : t.amount_left - iT ≠ 0 := by omega
              simp [this]
            · show wadd s.current_amount iS = wadd s.current_amount iT
              rw [hiST]
            · show wadd s.current_output_value sliceS
                = wadd s.current_output_value sliceT
              rw [hsliceSdef, hsliceTdef, hiST]
            · show s.amount_left - iS ≤ t.amount_left - iT
              omega
    · -- terminal step: capacity is the remaining amount itself
      have hkeq : k = NUM_OF_POINTS_IN_CURVE_DATA := le_antisymm hk hk10
      subst hkeq
      have hnlt : ¬(NUM_OF_POINTS_IN_CURVE_DATA < NUM_OF_POINTS_IN_CURVE_DATA) :=
        Nat.lt_irrefl _
      simp only [if_neg hnlt, eq_self_iff_true, if_true]
      by_cases hsz : s.amount_left ≤ 0
      · rw [if_pos hsz]
        by_cases htz : t.amount_left ≤ 0
        · rw [if_pos htz]
          exact ⟨⟨hp1P0, hbb2, hsum2, hleftA2⟩, hsums, hslefts, le_refl _,
            Or.inr (Or.inr (show s.amount_left = 0 by omega))⟩
        · rw [if_neg htz]
          set iT := if t.amount_left - 0 > t.amount_left then t.amount_left
            else t.amount_left - 0 with hiTdef
          have hiT_le : iT ≤ t.amount_left := by rw [hiTdef]; split <;> omega
          have hcurT : s.current_amount + iT < U64MOD := by omega
          have hbudget := sell_slice_budget ts.decimals
            ts.token_swap_fee_before_tw_bps ts.token_swap_fee_after_tw_bps
            target_amount P0 A2 s.current_amount p1 iT
            s.current_output_value t.amount_left (pow10w ts.decimals) rfl
            hfb hfa hp1P0 hiT_le hleftA2 hbb2 hbound hcurT
          have hcollT : wadd s.current_output_value
              (sellSliceOut ts.decimals ts.token_swap_fee_before_tw_bps
                ts.token_swap_fee_after_tw_bps target_amount p1
                s.current_amount iT)
              = s.current_output_value + _ := wadd_eq_add hbudget.1
          have hcurcollT : wadd s.current_amount iT = s.current_amount + iT :=
            wadd_eq_add hcurT
          refine ⟨⟨hp1P0, ?_, ?_, ?_⟩, hsums, hslefts, ?_,
            Or.inr (Or.inr (show s.amount_left = 0 by omega))⟩
          · show wadd s.current_output_value _ * pow10w ts.decimals
              + (t.amount_left - iT) * P0 ≤ A2 * P0
            rw [hcollT]
            exact hbudget.2
          · show wadd s.current_amount iT + (t.amount_left - iT) ≤ S + A2
            rw [hcurcollT]
            omega
          · show t.amount_left - iT ≤ A2
            omega
          · show s.current_output_value ≤ wadd s.current_output_value _
            rw [hcollT]
            omega
      · rw [if_neg hsz]
        have htz : ¬(t.amount_left ≤ 0) := by omega
        rw [if_neg htz]
        set iS := if s.amount_left - 0 > s.amount_left then s.amount_left
          else s.amount_left - 0 with hiSdef
        set iT := if t.amount_left - 0 > t.amount_left then t.amount_left
          else t.amount_left - 0 with hiTdef
        have hiS_le : iS ≤ s.amount_left := by rw [hiSdef]; split <;> omega
        have hiT_le : iT ≤ t.amount_left := by rw [hiTdef]; split <;> omega
        have hii : iS ≤ iT := by rw [hiSdef, hiTdef]; split <;> split <;> omega
        have hcurT : s.current_amount + iT < U64MOD := by omega
        have hsatT : iT * p1 < U64MOD * pow10w ts.decimals := by
          have h1 : iT * p1 ≤ A2 * P0 :=
            Nat.mul_le_mul (le_trans hiT_le hleftA2) hp1P0
          omega
        have hmono := sellSliceOut_mono ts.decimals
          ts.token_swap_fee_before_tw_bps ts.token_swap_fee_after_tw_bps
          target_amount p1 s.current_amount (pow10w ts.decimals) rfl hii
          hfb hfa hcurT hsatT
        have hbudget := sell_slice_budget ts.decimals
          ts.token_swap_fee_before_tw_bps ts.token_swap_fee_after_tw_bps
          target_amount P0 A2 s.current_amount p1 iT
          s.current_output_value t.amount_left (pow10w ts.decimals) rfl
          hfb hfa hp1P0 hiT_le hleftA2 hbb2 hbound hcurT
        set sliceS := sellSliceOut ts.decimals ts.token_swap_fee_before_tw_bps
          ts.token_swap_fee_after_tw_bps target_amount p1 s.current_amount iS
          with hsliceSdef
        set sliceT := sellSliceOut ts.decimals ts.token_swap_fee_before_tw_bps
          ts.token_swap_fee_after_tw_bps target_amount p1 s.current_amount iT
          with hsliceTdef
        have hcollT : wadd s.current_output_value sliceT
            = s.current_output_value + sliceT := wadd_eq_add hbudget.1
        have hcollS : wadd s.current_output_value sliceS
            = s.current_output_value + sliceS := wadd_eq_add (by omega)
        have hcurcollT : wadd s.current_amount iT = s.current_amount + iT :=
          wadd_eq_add hcurT
        have hcurcollS : wadd s.current_amount iS = s.current_amount + iS :=
          wadd_eq_add (by omega)
        refine ⟨⟨hp1P0, ?_, ?_, ?_⟩, ?_, ?_, ?_, Or.inr (Or.inr ?_)⟩
        · show wadd s.current_output_value sliceT * pow10w ts.decimals
            + (t.amount_left - iT) * P0 ≤ A2 * P0
          rw [hcollT]
          exact hbudget.2
        · show wadd s.current_amount iT + (t.amount_left - iT) ≤ S + A2
          rw [hcurcollT]
          omega
        · show t.amount_left - iT ≤ A2
          omega
        · show wadd s.current_amount iS + (s.amount_left - iS) ≤ S + A2
          rw [hcurcollS]
          omega
        · show s.amount_left - iS ≤ A2
          omega
        · show wadd s.current_output_value sliceS
            ≤ wadd s.current_output_value sliceT
          rw [hcollS, hcollT]
          omega
        · show s.amount_left - iS = 0
          rw [hiSdef]
          split <;> omega
  · -- phase B: run `s` is exhausted
    by_cases hsd : s.done = true
    · rw [sellStep_of_done _ _ _ _ _ hsd]
      exact ⟨hbt', hsums, hslefts, le_trans houtle houtgrow,
        Or.inr (Or.inl hsd)⟩
    · have hsdf : s.done = false := by
        revert hsd
        cases s.done <;> simp
      have hsl0 : s.amount_left = 0 := by
        rcases hB with h1 | h1
        · exact absurd h1 hsd
        · exact h1
      obtain ⟨hzo, hzl, hzc⟩ := sellStep_zero_left ts curve_data target_amount
        k s hsdf hsl0 hsoutlt hscurlt
      refine ⟨hbt', ?_, ?_, ?_, Or.inr (Or.inr hzl)⟩
      · rw [hzc, hzl]
        omega
      · rw [hzl]
        omega
      · rw [hzo]
        exact le_trans houtle houtgrow

theorem sellRun_coupled (ts : TokenSettings) (curve_data : TokenPriceData)
    (target_amount P0 S A2 : Nat)
    (hfb : ts.token_swap_fee_before_tw_bps ≤ BPS_DIVIDER)
    (hfa : ts.token_swap_fee_after_tw_bps ≤ BPS_DIVIDER)
    (hbound : A2 * P0 < U64MOD * pow10w ts.decimals)
    (hstart : S + A2 < U64MOD) :
    ∀ l : List Nat, (∀ x ∈ l, x ≤ NUM_OF_POINTS_IN_CURVE_DATA) →
      ∀ s t, sellCoupled P0 (pow10w ts.decimals) S A2 s t →
        sellCoupled P0 (pow10w ts.decimals) S A2
          (l.foldl (sellStep ts curve_data target_amount) s)
          (l.foldl (sellStep ts curve_data target_amount) t) := by
  intro l
  induction l with
  | nil => intro _ s t h; exact h
  | cons x xs ih =>
    intro hmem s t h
    simp only [List.foldl_cons]
    exact ih (fun y hy => hmem y (List.mem_cons_of_mem _ hy)) _ _
      (sellStep_coupled ts curve_data target_amount P0 S A2 x s t hfb hfa
        hbound hstart (hmem x (List.mem_cons_self _ _)) h)

/-- C8 (amended).  The sell-side walker is monotone in the sold amount:
for `a ≤ a'`, whenever the bps fee fields are in range (they are `u8`, hence
`≤ 255 ≤ BPS_DIVIDER`) and the run cannot overflow — `a' * sell_price <
2^64 * 10^decimals` (so no USD conversion saturates and the accumulator never
wraps) and `start_amount + a' < 2^64` (so `current_amount` never wraps) —
`compute_value_of_sold_token` returns at `a` a value no larger than at `a'`.
The buy side of the original claim is false (see the counterexample). -/
theorem c8_sell_side_monotone (ts : TokenSettings) (price : OraclePrice)
    (start_amount target_amount : Nat) (curve_data : TokenPriceData)
    (a a' : Nat) (haa : a ≤ a')
    (hfb : ts.token_swap_fee_before_tw_bps ≤ BPS_DIVIDER)
    (hfa : ts.token_swap_fee_after_tw_bps ≤ BPS_DIVIDER)
    (hbound : a' * price.sell_price < U64MOD * pow10w ts.decimals)
    (hstart : start_amount + a' < U64MOD) :
    ∀ x y, computeValueOfSoldToken a ts price start_amount target_amount
        curve_data = Except.ok x →
      computeValueOfSoldToken a' ts price start_amount target_amount
        curve_data = Except.ok y →
      x ≤ y := by
  intro x y hx hy
  unfold computeValueOfSoldToken at hx hy
  injection hx with hx
  injection hy with hy
  rw [← hx, ← hy]
  unfold soldValue
  have hinit : sellCoupled price.sell_price (pow10w ts.decimals) start_amount a'
      (sellInit a start_amount target_amount price.sell_price)
      (sellInit a' start_amount target_amount price.sell_price) := by
    unfold sellInit sellCoupled sellBounds
    refine ⟨⟨le_refl _, ?_, ?_, le_refl _⟩, ?_, haa, le_refl _,
      Or.inl ⟨rfl, rfl, rfl, rfl, rfl, rfl, haa⟩⟩
    · simp
    · show start_amount + a' ≤ start_amount + a'
      exact le_refl _
    · show start_amount + a ≤ start_amount + a'
      omega
  have hrun := sellRun_coupled ts curve_data target_amount price.sell_price
    start_amount a' hfb hfa hbound hstart
    (List.range (NUM_OF_POINTS_IN_CURVE_DATA + 1))
    (fun x hx => by
      have := List.mem_range.mp hx
      omega)
    _ _ hinit
  exact hrun.2.2.2.1

/-- C8 (counterexample to the claim as stated).  The buy-side walker is
not monotone in the spent value: with 0 decimals, `buy_price = 100`, a 255 bps
after-target fee, `start_amount = 1`, `target_amount = 0` and a single curve
point of 41 units, spending 4099 buys 40 units but spending 4100 buys only 39
(the clip-and-recompute of the slice moves value across the target boundary
into the higher-fee bucket). -/
theorem c8_cex :
    (4099 : Nat) ≤ 4100 ∧
      computeAmountOfBoughtToken 4099 tsBuyFee priceBuy100 1 0 curveBuy41
        = Except.ok 40 ∧
      computeAmountOfBoughtToken 4100 tsBuyFee priceBuy100 1 0 curveBuy41
        = Except.ok 39 ∧
      (39 : Nat) < 40 := by
  refine ⟨by omega, rfl, rfl, by omega⟩

/-- C8 (witness). -/
theorem c8_witness :
    soldValue 1 defaultTokenSettings priceUnit 0 0 curveZero
      ≤ soldValue 2 defaultTokenSettings priceUnit 0 0 curveZero :=
  c8_sell_side_monotone defaultTokenSettings priceUnit 0 0 curveZero 1 2
    (by decide) (by decide) (by decide) (by decide) (by decide)
    (soldValue 1 defaultTokenSettings priceUnit 0 0 curveZero)
    (soldValue 2 defaultTokenSettings priceUnit 0 0 curveZero) rfl rfl

theorem sellStep_out_lt (ts : TokenSettings) (curve_data : TokenPriceData)
    (target_amount k : Nat) (s : SellState)
    (h : s.current_output_value < U64MOD) :
    (sellStep ts curve_data target_amount s k).current_output_value < U64MOD := by
  by_cases hd : s.done = true
  · rw [sellStep_of_done _ _ _ _ _ hd]
    exact h
  · have hdf : s.done = false := by
      revert hd
      cases s.done <;> simp
    unfold sellStep
    rw [hdf]
    simp only [Bool.false_eq_true, if_false]
    repeat' split
    all_goals first
      | exact h
      | exact wadd_lt _ _

theorem sellRun_out_lt (ts : TokenSettings) (curve_data : TokenPriceData)
    (target_amount : Nat) :
    ∀ (l : List Nat) (s : SellState), s.current_output_value < U64MOD →
      (l.foldl (sellStep ts curve_data target_amount) s).current_output_value
        < U64MOD := by
  intro l
  induction l with
  | nil => intro s h; exact h
  | cons x xs ih =>
    intro s h
    simp only [List.foldl_cons]
    exact ih _ (sellStep_out_lt ts curve_data target_amount x s h)

theorem sellStep_frozen (ts : TokenSettings) (curve_data : TokenPriceData)
    (target_amount k : Nat) (s : SellState)
    (hout : s.current_output_value < U64MOD)
    (h : s.done = true ∨ s.current_price = 0) :
    (sellStep ts curve_data target_amount s k).current_output_value
        = s.current_output_value ∧
      ((sellStep ts curve_data target_amount s k).done = true ∨
        (sellStep ts curve_data target_amount s k).current_price = 0) := by
  by_cases hd : s.done = true
  · rw [sellStep_of_done _ _ _ _ _ hd]
    exact ⟨rfl, Or.inl hd⟩
  · have hdf : s.done = false := by
      revert hd
      cases s.done <;> simp
    have hp0 : s.current_price = 0 := by
      rcases h with h1 | h1
      · exact absurd h1 hd
      · exact h1
    have hcond : ¬(k < NUM_OF_POINTS_IN_CURVE_DATA ∧
        curve_data.price k < s.current_price ∧
        ts.use_curve_data = USE_CURVE_DATA) := by
      rw [hp0]
      rintro ⟨_, hlt, _⟩
      omega
    unfold sellStep
    rw [hdf]
    simp only [Bool.false_eq_true, if_false, if_neg hcond]
    simp only [hp0, sellSliceOut_zero_price, wadd_zero_right hout]
    refine ⟨?_, ?_⟩
    · repeat' split
      all_goals rfl
    · repeat' split
      all_goals exact Or.inr rfl

theorem sellRun_frozen (ts : TokenSettings) (curve_data : TokenPriceData)
    (target_amount : Nat) :
    ∀ (l : List Nat) (s : SellState),
      s.current_output_value < U64MOD →
      (s.done = true ∨ s.current_price = 0) →
      (l.foldl (sellStep ts curve_data target_amount) s).current_output_value
        = s.current_output_value := by
  intro l
  induction l with
  | nil => intro s _ _; rfl
  | cons x xs ih =>
    intro s hout h
    simp only [List.foldl_cons]
    obtain ⟨h1, h2⟩ := sellStep_frozen ts curve_data target_amount x s hout h
    rw [ih _ (by rw [h1]; exact hout) h2, h1]

theorem sellStep_hits_zero (ts : TokenSettings) (curve_data : TokenPriceData)
    (target_amount j : Nat) (s : SellState)
    (husc : ts.use_curve_data = USE_CURVE_DATA)
    (hj : j < NUM_OF_POINTS_IN_CURVE_DATA)
    (hzero : curve_data.price j = 0)
    (hout : s.current_output_value < U64MOD) :
    (sellStep ts curve_data target_amount s j).current_output_value
        = s.current_output_value ∧
      ((sellStep ts curve_data target_amount s j).done = true ∨
        (sellStep ts curve_data target_amount s j).current_price = 0) := by
  by_cases hd : s.done = true
  · rw [sellStep_of_done _ _ _ _ _ hd]
    exact ⟨rfl, Or.inl hd⟩
  · have hdf : s.done = false := by
      revert hd
      cases s.done <;> simp
    by_cases hp0 : s.current_price = 0
    · exact sellStep_frozen ts curve_data target_amount j s hout (Or.inr hp0)
    · have hcond : j < NUM_OF_POINTS_IN_CURVE_DATA ∧
          curve_data.price j < s.current_price ∧
          ts.use_curve_data = USE_CURVE_DATA := ⟨hj, by omega, husc⟩
      unfold sellStep
      rw [hdf]
      simp only [Bool.false_eq_true, if_false, if_pos hcond]
      simp only [hzero, sellSliceOut_zero_price, wadd_zero_right hout]
      refine ⟨?_, ?_⟩
      · repeat' split
        all_goals rfl
      · repeat' split
        all_goals exact Or.inr rfl

/-- C10 (confirmed).  In `compute_value_of_sold_token` with
`use_curve_data = 1` and a positive starting `sell_price`, a curve point
`price[j] = 0` (`j < 10`) zeroes the walk from step `j` on: the price update
runs before the skip/slice handling, so step `j` itself and every later step
— including the terminal catch-all — convert at price 0 and contribute
nothing.  The returned value therefore equals the output accumulated by the
first `j` steps alone. -/
theorem c10_zero_curve_point (amount : Nat) (ts : TokenSettings)
    (price : OraclePrice) (start_amount target_amount : Nat)
    (curve_data : TokenPriceData) (j : Nat)
    (hj : j < NUM_OF_POINTS_IN_CURVE_DATA)
    (husc : ts.use_curve_data = USE_CURVE_DATA)
    (hzero : curve_data.price j = 0)
    (hpos : 0 < price.sell_price) :
    computeValueOfSoldToken amount ts price start_amount target_amount
        curve_data =
      Except.ok (((List.range j).foldl (sellStep ts curve_data target_amount)
        (sellInit amount start_amount target_amount
          price.sell_price)).current_output_value) := by
  unfold computeValueOfSoldToken soldValue
  congr 1
  have hsplit : NUM_OF_POINTS_IN_CURVE_DATA + 1
      = j + (NUM_OF_POINTS_IN_CURVE_DATA - j + 1) := by omega
  rw [hsplit, List.range_add, List.foldl_append, List.range_succ_eq_map,
    List.map_cons, List.foldl_cons]
  have houtPre : (((List.range j).foldl (sellStep ts curve_data target_amount)
      (sellInit amount start_amount target_amount
        price.sell_price))).current_output_value < U64MOD := by
    apply sellRun_out_lt
    show (0 : Nat) < U64MOD
    exact U64MOD_pos
  obtain ⟨hjo, hjinv⟩ := sellStep_hits_zero ts curve_data target_amount (j + 0)
    ((List.range j).foldl (sellStep ts curve_data target_amount)
      (sellInit amount start_amount target_amount price.sell_price))
    husc (by omega) (by rw [Nat.add_zero]; exact hzero) houtPre
  rw [sellRun_frozen ts curve_data target_amount _ _ (by rw [hjo]; exact houtPre)
    hjinv, hjo]

/-- C10 (witness). -/
theorem c10_witness :
    computeValueOfSoldToken 7 tsCurveOn priceFive 0 0 curveZero =
      Except.ok (((List.range 1).foldl (sellStep tsCurveOn curveZero 0)
        (sellInit 7 0 0 priceFive.sell_price)).current_output_value) :=
  c10_zero_curve_point 7 tsCurveOn priceFive 0 0 curveZero 1 (by decide)
    (by decide) (by decide) (by decide)

/-- C1 (amended).  `mul_div(a, b, c)` never exceeds the exact `⌊a·b/c⌋`,
returns `0` when `c = 0`, equals `⌊a·b/c⌋` whenever `c ≠ 0` and the quotient
fits in `u64`, and is zero exactly when `c = 0`, the floored quotient is zero
(which already happens for `0 < a·b < c`), or the quotient overflows `u64` —
not only when `c = 0` or `a·b = 0` as originally claimed. -/
theorem c1_mulDiv_props (a b c : Nat)
    (ha : a < U64MOD) (hb : b < U64MOD) (hc : c < U64MOD) :
    mulDiv a b c ≤ a * b / c ∧
      (c = 0 → mulDiv a b c = 0) ∧
      (c ≠ 0 → a * b / c < U64MOD → mulDiv a b c = a * b / c) ∧
      (mulDiv a b c = 0 ↔ c = 0 ∨ a * b / c = 0 ∨ U64MOD ≤ a * b / c) :=
  ⟨mulDiv_le a b c,
    fun h => by unfold mulDiv; rw [if_pos h],
    fun h1 h2 => mulDiv_eq h1 h2,
    mulDiv_eq_zero_iff a b c⟩

/-- C1 (counterexample to the claim as stated): `mul_div(1, 1, 2) = 0`
although the divisor and the numerator are both nonzero. -/
theorem c1_cex : mulDiv 1 1 2 = 0 ∧ (2 : Nat) ≠ 0 ∧ (1 * 1 : Nat) ≠ 0 := by
  decide

/-- C1 (witness). -/
theorem c1_witness : mulDiv 6 7 2 = 6 * 7 / 2 :=
  (c1_mulDiv_props 6 7 2 (by decide) (by decide) (by decide)).2.2.1
    (by decide) (by decide)

/-- C2 (behaviour at the failing input).  The claim says an unknown
`oracle_type` yields the all-zero price; in the source the size check
`ORACLE_ACCOUNT_SIZE[oracle_type as usize]` indexes a two-element array and
panics first, for every account-data input, so the `_ => (0, 0, 0)` match arm
is unreachable. -/
theorem c2_unknown_type_panics (d : Bytes) (ts : TokenSettings)
    (clock : AmbientClock) (h : 2 ≤ ts.oracle_type) :
    OraclePrice.load d ts clock = LRes.panic := by
  unfold OraclePrice.load
  rw [if_pos h]

/-- C2 (witness). -/
theorem c2_witness :
    OraclePrice.load (zeroBuf 3312) tsOracleType2 clockZero = LRes.panic :=
  c2_unknown_type_panics _ _ _ (by decide)

/-- C3 (amended).  `OraclePrice::load` succeeds on every correct-size buffer
for `oracle_type = 0`, and for `oracle_type = 1` whenever `oracle_index ≤ 49`
(so that the mantissa and timestamp slices fit inside the 809-byte account);
no arithmetic in the body can fail (`u64` operations wrap and `mul_div` is
total), so within these bounds the wrong account size is the only failure. -/
theorem c3_load_ok (d : Bytes) (ts : TokenSettings) (clock : AmbientClock)
    (h : (ts.oracle_type = 0 ∧ d.len = 3312) ∨
      (ts.oracle_type = 1 ∧ ts.oracle_index ≤ 49 ∧ d.len = 809)) :
    ∃ p, OraclePrice.load d ts clock = LRes.ok p := by
  unfold OraclePrice.load
  rcases h with ⟨h0, hl⟩ | ⟨h1, hi, hl⟩
  · rw [if_neg (by omega), if_neg (by rw [h0, hl]; decide),
      if_neg (by rw [h0]; simp)]
    exact ⟨_, rfl⟩
  · rw [if_neg (by omega), if_neg (by rw [h1, hl]; decide),
      if_neg (by rintro ⟨heq, hbad⟩; rw [hl] at hbad; rcases hbad with hb | hb <;> omega)]
    exact ⟨_, rfl⟩

/-- C3 (counterexample to the claim as stated): a table oracle with
`oracle_index = 50` panics on a correct-size 809-byte account, because the
timestamp slice `409 + 50·8 .. 417 + 50·8` overruns the buffer. -/
theorem c3_cex :
    OraclePrice.load (zeroBuf 809) tsTableIdx50 clockZero = LRes.panic := rfl

/-- C3 (witness). -/
theorem c3_witness :
    ∃ p, OraclePrice.load (zeroBuf 3312) defaultTokenSettings clockZero
      = LRes.ok p :=
  c3_load_ok _ _ _ (Or.inl ⟨rfl, rfl⟩)

/-- C6 (behaviour at the failing input).  The claim says the normalizer never
reads a global clock; the source calls `Clock::get()` (accounts.rs lines 244
and 282) and takes no clock argument.  With identical oracle bytes and
settings, two different ambient clock readings give different results, so the
output is not a function of the declared inputs alone. -/
theorem c6_ambient_clock_dependence :
    OraclePrice.load (zeroBuf 809) tsTableIdx0 clockZero
        = LRes.ok ⟨0, 0, 0, 1⟩ ∧
      OraclePrice.load (zeroBuf 809) tsTableIdx0 clockLate
        = LRes.ok ⟨0, 0, 0, 0⟩ ∧
      (⟨0, 0, 0, 1⟩ : OraclePrice) ≠ ⟨0, 0, 0, 0⟩ :=
  ⟨by decide, by decide, by decide⟩

theorem OraclePrice_load_ok_eq (d : Bytes) (ts : TokenSettings)
    (clock : AmbientClock) (p : OraclePrice)
    (h : OraclePrice.load d ts clock = LRes.ok p) :
    p = oracleFinish (oracleCore d ts clock) ts.fixed_confidence_bps := by
  unfold OraclePrice.load at h
  by_cases h1 : 2 ≤ ts.oracle_type
  · rw [if_pos h1] at h
    exact (LRes.noConfusion h)
  · rw [if_neg h1] at h
    by_cases h2 : d.len ≠ ORACLE_ACCOUNT_SIZE ts.oracle_type
    · rw [if_pos h2] at h
      exact (LRes.noConfusion h)
    · rw [if_neg h2] at h
      by_cases h3 : ts.oracle_type = 1 ∧
          (d.len < ts.oracle_index * 8 + 9 + 8 ∨
            d.len < ts.oracle_index * 8 + 9 + 408)
      · rw [if_pos h3] at h
        exact (LRes.noConfusion h)
      · rw [if_neg h3] at h
        injection h with hh
        exact hh.symm

theorem oracleFinish_ordered (pcl : Nat × Nat × Nat) (fixedBps : Nat)
    (hlo : pcl.2.1 + mulDiv pcl.1 fixedBps 10000 ≤ pcl.1)
    (hhi : pcl.1 + pcl.2.1 + mulDiv pcl.1 fixedBps 10000 < U64MOD) :
    (oracleFinish pcl fixedBps).sell_price ≤ (oracleFinish pcl fixedBps).avg_price ∧
      (oracleFinish pcl fixedBps).avg_price ≤ (oracleFinish pcl fixedBps).buy_price := by
  unfold oracleFinish
  constructor
  · show wsub (wsub pcl.1 pcl.2.1) (mulDiv pcl.1 fixedBps 10000) ≤ pcl.1
    rw [@wsub_eq_sub pcl.1 pcl.2.1 (by omega) (by omega)]
    rw [@wsub_eq_sub (pcl.1 - pcl.2.1) (mulDiv pcl.1 fixedBps 10000)
      (by omega) (by omega)]
    omega
  · show pcl.1 ≤ wadd (wadd pcl.1 pcl.2.1) (mulDiv pcl.1 fixedBps 10000)
    rw [@wadd_eq_add pcl.1 pcl.2.1 (by omega)]
    rw [@wadd_eq_add (pcl.1 + pcl.2.1) (mulDiv pcl.1 fixedBps 10000) (by omega)]
    omega

/-- C7 (amended).  Whenever `OraclePrice::load` returns a price with
`oracle_live = 1` **and** the confidence terms do not wrap the `u64`
finishing arithmetic — `base_confidence + additional_confidence ≤ avg_price`
and `avg_price + base_confidence + additional_confidence < 2^64` — the
returned triple satisfies `sell_price ≤ avg_price ≤ buy_price`.  Without the
no-wrap side conditions the invariant fails (see the counterexample, where a
huge `conf` defeats the wrapped `conf * 10 > price` band check). -/
theorem c7_live_price_ordering (d : Bytes) (ts : TokenSettings)
    (clock : AmbientClock) (p : OraclePrice)
    (hok : OraclePrice.load d ts clock = LRes.ok p)
    (hlive : p.oracle_live = 1)
    (hlo : (oracleCore d ts clock).2.1
        + mulDiv (oracleCore d ts clock).1 ts.fixed_confidence_bps 10000
        ≤ (oracleCore d ts clock).1)
    (hhi : (oracleCore d ts clock).1 + (oracleCore d ts clock).2.1
        + mulDiv (oracleCore d ts clock).1 ts.fixed_confidence_bps 10000
        < U64MOD) :
    p.sell_price ≤ p.avg_price ∧ p.avg_price ≤ p.buy_price := by
  rw [OraclePrice_load_ok_eq d ts clock p hok]
  exact oracleFinish_ordered _ _ hlo hhi

/-- C7 (counterexample to the claim as stated): a Pyth-like account with
`price = 100` and `conf = 2^63` keeps `oracle_live = 1` (the `conf * 10`
product wraps to 0, defeating the 10%-band check) yet the wrapped
`price - confidence` subtraction makes `sell_price = 2^63 + 100`, far above
`avg_price = 100`. -/
theorem c7_cex :
    OraclePrice.load pythBufHugeConf tsPythFullPct clockZero =
        LRes.ok ⟨9223372036854775908, 100, 9223372036854775908, 1⟩ ∧
      ¬(9223372036854775908 ≤ (100 : Nat)) :=
  ⟨by decide, by decide⟩

/-- C7 (witness). -/
theorem c7_witness :
    ∃ p, OraclePrice.load pythBufNice tsPythNice clockZero = LRes.ok p ∧
      p.sell_price ≤ p.avg_price ∧ p.avg_price ≤ p.buy_price := by
  refine ⟨oracleFinish (oracleCore pythBufNice tsPythNice clockZero)
    tsPythNice.fixed_confidence_bps, by decide, ?_⟩
  exact c7_live_price_ordering pythBufNice tsPythNice clockZero _
    (by decide) (by decide) (by decide) (by decide)

/-- C5 (counterexample to the claim as stated).  In the curve-kick scenario
(`use_curve_data = 1`, decimals 6, zero fees, oracle sell = 1 USD,
`start_amount = target_amount`, sell curve point `amount = 50_000`,
`price = 0.9 USD`, all later points zero) selling 100_000 returns less than
half of the claimed `≈ 95_000·10⁻⁶·ONE_USD`: the curve price applies to its
own step's units (so the first 50_000 convert at 0.9, not 1.0) and the
zero-filled second point drags the price to 0 for the rest. -/
theorem c5_cex :
    2 * soldValue 100000 tsCurveKick priceOneUsd 1000000 1000000 curveSellKick
      < 95000 * 1000000 := by
  decide

/-- C5 (amended).  With the scenario's inputs the code prices the first
50_000 units at `0.9·ONE_USD` and the remaining 50_000 units at price 0,
returning exactly `45_000·10⁻⁶·ONE_USD = 45_000_000_000`. -/
theorem c5_actual_value :
    computeValueOfSoldToken 100000 tsCurveKick priceOneUsd 1000000 1000000
      curveSellKick = Except.ok 45000000000 := rfl

/-- C9 (confirmed).  `compute_amount_of_bought_token` is total in its value
argument: under the deployed (release, wrapping) semantics the terminal-step
doubling `value_left * 2` wraps modulo `2^64` and is then fed to the total
`mul_div`, so the function returns `Ok` for every input.  In particular at
`value_left = 2^63` the doubling wraps to 0 and the terminal slice collapses
to nothing (with an all-zero curve the function buys 0 despite the huge
value), the extreme form of the "undersized final slice". -/
theorem c9_bought_total :
    (∀ (value : Nat) (ts : TokenSettings) (price : OraclePrice)
        (start_amount target_amount : Nat) (curve_data : TokenPriceData),
      ∃ r, computeAmountOfBoughtToken value ts price start_amount
        target_amount curve_data = Except.ok r) ∧
      computeAmountOfBoughtToken 9223372036854775808 defaultTokenSettings
        priceOneUsd 0 0 curveZero = Except.ok 0 :=
  ⟨fun value ts price start_amount target_amount curve_data => ⟨_, rfl⟩, rfl⟩

theorem tokenListLoop_ok (d : Bytes) (hlen : d.len = TOKEN_LIST_ACCOUNT_SIZE) :
    ∀ (fuel i : Nat) (acc : Nat → TokenSettings),
      i + fuel ≤ MAX_TOKENS_IN_ASSET_POOL →
      ∃ f, tokenListLoop d i fuel acc = LRes.ok f := by
  intro fuel
  induction fuel with
  | zero => intro i acc _; exact ⟨acc, rfl⟩
  | succ n ih =>
    intro i acc h
    unfold tokenListLoop
    have hread : ¬(d.len < 16 + (i + 1) * 199) := by
      rw [hlen]
      unfold TOKEN_LIST_ACCOUNT_SIZE
      have : i + 1 ≤ 100 := by
        unfold MAX_TOKENS_IN_ASSET_POOL at h
        omega
      omega
    have hwrite : ¬(MAX_TOKENS_IN_ASSET_POOL ≤ i) := by
      unfold MAX_TOKENS_IN_ASSET_POOL at h ⊢
      omega
    rw [if_neg hread, if_neg hwrite]
    exact ih (i + 1) _ (by omega)

theorem tokenListLoop_panic (d : Bytes) (hlen : d.len = TOKEN_LIST_ACCOUNT_SIZE) :
    ∀ (fuel i : Nat) (acc : Nat → TokenSettings),
      i ≤ MAX_TOKENS_IN_ASSET_POOL → MAX_TOKENS_IN_ASSET_POOL < i + fuel →
      tokenListLoop d i fuel acc = LRes.panic := by
  intro fuel
  induction fuel with
  | zero =>
    intro i acc h1 h2
    exfalso
    omega
  | succ n ih =>
    intro i acc h1 h2
    unfold tokenListLoop
    have hread : ¬(d.len < 16 + (i + 1) * 199) := by
      rw [hlen]
      unfold TOKEN_LIST_ACCOUNT_SIZE
      have : i + 1 ≤ 101 := by
        unfold MAX_TOKENS_IN_ASSET_POOL at h1
        omega
      omega
    rw [if_neg hread]
    by_cases hi : MAX_TOKENS_IN_ASSET_POOL ≤ i
    · rw [if_pos hi]
    · rw [if_neg hi]
      exact ih (i + 1) _ (by omega) (by omega)

theorem tokenListLoop_entries (d : Bytes) :
    ∀ (fuel i : Nat) (acc f : Nat → TokenSettings),
      tokenListLoop d i fuel acc = LRes.ok f →
      ∀ j, i + fuel ≤ j → f j = acc j := by
  intro fuel
  induction fuel with
  | zero =>
    intro i acc f h j _
    unfold tokenListLoop at h
    injection h with h
    rw [← h]
  | succ n ih =>
    intro i acc f h j hj
    unfold tokenListLoop at h
    by_cases h1 : d.len < 16 + (i + 1) * 199
    · rw [if_pos h1] at h
      exact (LRes.noConfusion h)
    · rw [if_neg h1] at h
      by_cases h2 : MAX_TOKENS_IN_ASSET_POOL ≤ i
      · rw [if_pos h2] at h
        exact (LRes.noConfusion h)
      · rw [if_neg h2] at h
        have hstep := ih (i + 1) _ f h j (by omega)
        rw [hstep]
        have hne : j ≠ i := by omega
        simp only [if_neg hne]

theorem finishTokenList_panic (n : Nat) :
    finishTokenList n LRes.panic = LRes.panic := rfl

theorem finishTokenList_err (n : Nat) (e : String) :
    finishTokenList n (LRes.err e) = LRes.err e := rfl

theorem finishTokenList_ok (n : Nat) (f : Nat → TokenSettings) :
    finishTokenList n (LRes.ok f) = LRes.ok { num_tokens := n, list := f } := rfl

/-- C4 (amended).  For `FundState::load` and `CurveData::load` a length
mismatch is the only decode failure and every correct-size buffer decodes.
For `TokenList::load` this holds only when the decoded `num_tokens` field is
at most 100: the parsing loop writes `list[i]` for every `i < num_tokens`
without bounding it by the array length, so `num_tokens ≥ 101` panics at
`i = 100` even on a correct-size buffer.  When it succeeds, only the first
`num_tokens` entries are parsed and all remaining positions keep the
zero-initialised defaults. -/
theorem c4_decoders (d : Bytes) :
    ((∃ r, FundState.load d = LRes.ok r) ↔ d.len = FUND_STATE_ACCOUNT_SIZE) ∧
      ((∃ r, CurveData.load d = LRes.ok r) ↔ d.len = CURVE_DATA_ACCOUNT_SIZE) ∧
      ((∃ r, TokenList.load d = LRes.ok r) ↔
        (d.len = TOKEN_LIST_ACCOUNT_SIZE ∧
          readU64 d 8 ≤ MAX_TOKENS_IN_ASSET_POOL)) ∧
      (∀ r, TokenList.load d = LRes.ok r →
        r.num_tokens = readU64 d 8 ∧
        ∀ i, readU64 d 8 ≤ i → r.list i = defaultTokenSettings) := by
  refine ⟨?_, ?_, ?_, ?_⟩
  · constructor
    · rintro ⟨r, hr⟩
      by_contra hne
      unfold FundState.load at hr
      rw [if_pos hne] at hr
      exact (LRes.noConfusion hr)
    · intro hl
      unfold FundState.load
      rw [if_neg (fun hh => hh hl)]
      exact ⟨_, rfl⟩
  · constructor
    · rintro ⟨r, hr⟩
      by_contra hne
      unfold CurveData.load at hr
      rw [if_pos hne] at hr
      exact (LRes.noConfusion hr)
    · intro hl
      unfold CurveData.load
      rw [if_neg (fun hh => hh hl)]
      exact ⟨_, rfl⟩
  · constructor
    · rintro ⟨r, hr⟩
      unfold TokenList.load at hr
      by_cases hl : d.len = TOKEN_LIST_ACCOUNT_SIZE
      · refine ⟨hl, ?_⟩
        by_contra hn
        push_neg at hn
        rw [if_neg (fun hh => hh hl)] at hr
        rw [tokenListLoop_panic d hl (readU64 d 8) 0 _ (by omega) (by omega),
          finishTokenList_panic] at hr
        exact (LRes.noConfusion hr)
      · rw [if_pos hl] at hr
        exact (LRes.noConfusion hr)
    · rintro ⟨hl, hn⟩
      obtain ⟨f, hf⟩ := tokenListLoop_ok d hl (readU64 d 8) 0
        (fun _ => defaultTokenSettings) (by omega)
      unfold TokenList.load
      rw [if_neg (fun hh => hh hl), hf, finishTokenList_ok]
      exact ⟨_, rfl⟩
  · intro r hr
    unfold TokenList.load at hr
    by_cases hl : d.len = TOKEN_LIST_ACCOUNT_SIZE
    · rw [if_neg (fun hh => hh hl)] at hr
      cases hloop : tokenListLoop d 0 (readU64 d 8)
          (fun _ => defaultTokenSettings) with
      | panic =>
        rw [hloop, finishTokenList_panic] at hr
        exact (LRes.noConfusion hr)
      | err e =>
        rw [hloop, finishTokenList_err] at hr
        exact (LRes.noConfusion hr)
      | ok f =>
        rw [hloop, finishTokenList_ok] at hr
        injection hr with hr
        rw [← hr]
        refine ⟨rfl, ?_⟩
        intro i hi
        exact tokenListLoop_entries d (readU64 d 8) 0 _ f hloop i (by omega)
    · rw [if_pos hl] at hr
      exact (LRes.noConfusion hr)

/-- C4 (counterexample to the claim as stated): a `TokenList` account of the
exact expected size whose `num_tokens` field decodes to 101 makes
`TokenList::load` panic (writing `list[100]` into the 100-element array)
instead of returning a record. -/
theorem c4_cex :
    tokenListBuf101.len = TOKEN_LIST_ACCOUNT_SIZE ∧
      readU64 tokenListBuf101 8 = 101 ∧
      TokenList.load tokenListBuf101 = LRes.panic :=
  ⟨rfl, by decide, rfl⟩

/-- C4 (witness). -/
theorem c4_witness :
    (∃ r, FundState.load (zeroBuf 10208) = LRes.ok r) ∧
      (∃ r, CurveData.load (zeroBuf 64008) = LRes.ok r) ∧
      (∃ r, TokenList.load (zeroBuf 39816) = LRes.ok r) :=
  ⟨((c4_decoders (zeroBuf 10208)).1).mpr rfl,
    ((c4_decoders (zeroBuf 64008)).2.1).mpr rfl,
    ((c4_decoders (zeroBuf 39816)).2.2.1).mpr ⟨rfl, by decide⟩⟩
